import Mathlib

/-!
Shallow embedding of the two cores of the batchjob-exporter repository —
the retention-aware TSDB load balancer (`pkg/lb/serverpool/resource.go`,
`pkg/lb/frontend/frontend.go`) and the cgroup compute-unit collector
(the `collector` package bundled in the same source file) — together with
theorems settling the specification claims against the embedded code.

Modelling conventions:
* Go machine integers (`time.Duration`, connection counters, uint64 stat
  counters) are modelled as `Int` / `Nat`; none of the modelled code paths
  perform overflowing arithmetic, only comparisons and copies.
* Go `float64` metric values are modelled as exact rationals `ℚ`; the
  modelled computations are divisions by powers of ten and copies.
* Go maps are modelled as association lists in insertion order.  Go map
  iteration order is unspecified; no theorem below depends on the order of
  emitted samples, only on membership and on per-family value sets.
* Go strings are modelled as `String`, with the byte-level loops of the
  source re-expressed over `List Char`.
-/

namespace Ceems

/-- A TSDB backend server as the load balancer sees it: the liveness flag
maintained by the health probe, the retention period (`time.Duration`,
int64 nanoseconds) and the active-connection counter.  Embeds the
`backend.Server` interface used by `resourceBased.Target`. -/
structure Server where
  alive : Bool
  retention : Int
  activeConns : Int
deriving DecidableEq

/-- Go map read with comma-ok over the `clusterID -> []backend.Server`
pool, as an association list in registration order. -/
def lookupPool : List (String × List Server) → String → Option (List Server)
  | [], _ => none
  | (k, v) :: rest, cid => if k = cid then some v else lookupPool rest cid

/-- `math.MaxInt32`, the initial value of the `activeConnections`
accumulator in `resourceBased.Target`. -/
def maxInt32 : Int := 2147483647

/-- The eligibility filter of `resourceBased.Target` (resource.go lines
42-53): keep backends that are alive and whose retention period strictly
exceeds the query window. -/
def eligibleOf (bs : List Server) (d : Int) : List Server :=
  bs.filter (fun b => b.alive && decide (d < b.retention))

/-- `slices.Min` (total; the caller only applies it to nonempty lists). -/
def listMinInt : List Int → Int
  | [] => 0
  | x :: xs => xs.foldl min x

/-- The least-connections selection loop of `resourceBased.Target`
(resource.go lines 72-86); the mutable `targetBackend` and
`activeConnections` locals are threaded as arguments. -/
def selectLoop : List Server → Int → Option Server → Int → Option Server
  | [], _, acc, _ => acc
  | b :: rest, minRet, acc, conns =>
    if b.alive then
      if b.retention = minRet ∧ conns > b.activeConns then
        selectLoop rest minRet (some b) b.activeConns
      else selectLoop rest minRet acc conns
    else selectLoop rest minRet acc conns

/-- `resourceBased.Target` (resource.go lines 26-95): unknown cluster and
empty eligible set yield `none`; a single eligible backend is returned
directly; otherwise the least-connections loop runs over the backends
whose retention equals the minimum eligible retention. -/
def Target (pool : List (String × List Server)) (cid : String) (d : Int) :
    Option Server :=
  match lookupPool pool cid with
  | none => none
  | some bs =>
    let tbs := eligibleOf bs d
    if tbs.length = 0 then none
    else if tbs.length = 1 then tbs.head?
    else selectLoop tbs (listMinInt (tbs.map (fun b => b.retention))) none maxInt32

/-- The query parameters middleware stores in the request context
(`QueryParams` in frontend.go). -/
structure QueryParamsM where
  uuids : List String
  queryPeriod : Int
deriving DecidableEq

/-- Outcome of one `loadBalancer.Serve` call: either the request is
forwarded through a chosen backend, or the balancer answers
`503 Service Unavailable` itself. -/
inductive ServeResult where
  | forwarded (b : Server)
  | serviceUnavailable
deriving DecidableEq

/-- The query window `loadBalancer.Serve` extracts from the request
context (frontend.go lines 127-134): zero when the context value is
absent. -/
def queryPeriodOf : Option QueryParamsM → Int
  | none => 0
  | some q => q.queryPeriod

/-- `loadBalancer.Serve` (frontend.go lines 123-143) composed with the
resource-based pool: a nil target yields the 503 error response,
otherwise the request is forwarded through the target. -/
def Serve (pool : List (String × List Server)) (cid : String)
    (qp : Option QueryParamsM) : ServeResult :=
  match Target pool cid (queryPeriodOf qp) with
  | some t => .forwarded t
  | none => .serviceUnavailable

/-- Reference value: the minimum retention period over the eligible set
(spec section 4.6, step 5). -/
def minRetention (bs : List Server) (d : Int) : Int :=
  listMinInt ((eligibleOf bs d).map (fun b => b.retention))

/-- Reference value: the eligible backends whose retention attains the
minimum (the candidate set of spec section 4.6, step 5). -/
def candidatesOf (bs : List Server) (d : Int) : List Server :=
  (eligibleOf bs d).filter (fun b => decide (b.retention = minRetention bs d))

/-- Reference value: the smallest active-connection count among the
minimum-retention candidates. -/
def minCandConns (bs : List Server) (d : Int) : Int :=
  listMinInt ((candidatesOf bs d).map (fun b => b.activeConns))

/-- Candidate test of the selection loop: alive, minimum retention, and an
active-connection count that strictly improves on the accumulator. -/
def pcand (mr cur : Int) (b : Server) : Bool :=
  b.alive && decide (b.retention = mr) && decide (b.activeConns < cur)

lemma pcand_iff (mr cur : Int) (b : Server) :
    pcand mr cur b = true ↔
      b.alive = true ∧ b.retention = mr ∧ b.activeConns < cur := by
  simp [pcand, and_assoc]

lemma foldl_min_le_init (xs : List Int) (a : Int) : xs.foldl min a ≤ a := by
  induction xs generalizing a with
  | nil => simp
  | cons x xs ih => exact le_trans (ih (min a x)) (min_le_left a x)

lemma foldl_min_le_mem (xs : List Int) (a : Int) :
    ∀ x ∈ xs, xs.foldl min a ≤ x := by
  induction xs generalizing a with
  | nil => intro x hx; cases hx
  | cons y ys ih =>
    intro x hx
    rcases List.mem_cons.mp hx with h | h
    · subst h
      exact le_trans (foldl_min_le_init ys (min a x)) (min_le_right a x)
    · exact ih (min a y) x h

lemma foldl_min_mem_or (xs : List Int) (a : Int) :
    xs.foldl min a = a ∨ xs.foldl min a ∈ xs := by
  induction xs generalizing a with
  | nil => exact Or.inl rfl
  | cons x xs ih =>
    rcases ih (min a x) with h | h
    · rcases min_cases a x with ⟨h2, _⟩ | ⟨h2, _⟩
      · exact Or.inl (by rw [List.foldl_cons, h, h2])
      · exact Or.inr (by rw [List.foldl_cons, h, h2]; exact List.mem_cons_self x xs)
    · exact Or.inr (List.mem_cons_of_mem x h)

lemma listMinInt_mem (l : List Int) (h : l ≠ []) : listMinInt l ∈ l := by
  match l with
  | [] => exact absurd rfl h
  | x :: xs =>
    have hdef : listMinInt (x :: xs) = xs.foldl min x := rfl
    rw [hdef]
    rcases foldl_min_mem_or xs x with h2 | h2
    · rw [h2]; exact List.mem_cons_self x xs
    · exact List.mem_cons_of_mem x h2

lemma listMinInt_le (l : List Int) : ∀ x ∈ l, listMinInt l ≤ x := by
  match l with
  | [] => intro x hx; cases hx
  | y :: ys =>
    intro x hx
    have hdef : listMinInt (y :: ys) = ys.foldl min y := rfl
    rw [hdef]
    rcases List.mem_cons.mp hx with h | h
    · subst h; exact foldl_min_le_init ys x
    · exact foldl_min_le_mem ys y x h

lemma listMinInt_cons_of_le (a : Int) (xs : List Int) (h : ∀ x ∈ xs, a ≤ x) :
    listMinInt (a :: xs) = a := by
  have h1 : listMinInt (a :: xs) ≤ a := listMinInt_le _ a (List.mem_cons_self a xs)
  have hm := listMinInt_mem (a :: xs) (by simp)
  rcases List.mem_cons.mp hm with he | he
  · exact he
  · have h2 : a ≤ listMinInt (a :: xs) := h _ he
    omega

lemma find?_filter_fuse (l : List α) (p q : α → Bool) :
    (l.filter p).find? q = l.find? (fun a => p a && q a) := by
  induction l with
  | nil => rfl
  | cons a l ih =>
    by_cases hp : p a = true
    · rw [List.filter_cons_of_pos hp]
      by_cases hq : q a = true
      · rw [List.find?_cons_of_pos _ hq, List.find?_cons_of_pos _ (by
          rw [hp, hq]; rfl)]
      · rw [List.find?_cons_of_neg _ hq, List.find?_cons_of_neg _ (by
          simp [hp, hq]), ih]
    · rw [List.filter_cons_of_neg hp, List.find?_cons_of_neg _ (by
        simp [hp]), ih]

lemma find?_congr_mem (l : List α) (p q : α → Bool)
    (h : ∀ a ∈ l, p a = q a) : l.find? p = l.find? q := by
  induction l with
  | nil => rfl
  | cons a l ih =>
    have ha := h a (List.mem_cons_self a l)
    by_cases hp : p a = true
    · rw [List.find?_cons_of_pos _ hp, List.find?_cons_of_pos _ (ha ▸ hp)]
    · rw [List.find?_cons_of_neg _ hp,
        List.find?_cons_of_neg _ (by rw [← ha]; exact hp)]
      exact ih (fun x hx => h x (List.mem_cons_of_mem a hx))

lemma selectLoop_stay (l : List Server) (mr : Int) :
    ∀ (acc : Option Server) (cur : Int),
      (∀ b ∈ l, pcand mr cur b = false) → selectLoop l mr acc cur = acc := by
  induction l with
  | nil => intro acc cur _; rfl
  | cons b rest ih =>
    intro acc cur h
    have hb := h b (List.mem_cons_self b rest)
    have hrest := fun x hx => h x (List.mem_cons_of_mem b hx)
    simp only [selectLoop]
    by_cases ha : b.alive = true
    · have hcond : ¬(b.retention = mr ∧ cur > b.activeConns) := by
        rintro ⟨h1, h2⟩
        have : pcand mr cur b = true := (pcand_iff mr cur b).mpr ⟨ha, h1, by omega⟩
        rw [this] at hb; cases hb
      rw [if_pos ha, if_neg hcond]
      exact ih acc cur hrest
    · rw [if_neg ha]
      exact ih acc cur hrest

lemma selectLoop_find (l : List Server) (mr : Int) :
    ∀ (acc : Option Server) (cur : Int), (∃ b ∈ l, pcand mr cur b = true) →
      selectLoop l mr acc cur =
        l.find? (fun b => pcand mr cur b && decide (b.activeConns =
          listMinInt ((l.filter (pcand mr cur)).map (fun x => x.activeConns)))) := by
  induction l with
  | nil => rintro acc cur ⟨b, hb, _⟩; cases hb
  | cons b rest ih =>
    intro acc cur hex
    by_cases hc : pcand mr cur b = true
    case pos =>
      obtain ⟨ha, hr, hlt⟩ := (pcand_iff mr cur b).mp hc
      have hstep : selectLoop (b :: rest) mr acc cur =
          selectLoop rest mr (some b) b.activeConns := by
        simp only [selectLoop]
        rw [if_pos ha, if_pos ⟨hr, by omega⟩]
      have hfilter : (b :: rest).filter (pcand mr cur) =
          b :: rest.filter (pcand mr cur) := List.filter_cons_of_pos hc
      by_cases hex2 : ∃ b2 ∈ rest, pcand mr b.activeConns b2 = true
      case pos =>
        obtain ⟨b2, hb2mem, hb2⟩ := hex2
        obtain ⟨ha2, hr2, hlt2⟩ := (pcand_iff _ _ _).mp hb2
        have hb2cur : pcand mr cur b2 = true :=
          (pcand_iff _ _ _).mpr ⟨ha2, hr2, by omega⟩
        set M := listMinInt (((b :: rest).filter (pcand mr cur)).map
          (fun x => x.activeConns)) with hM
        have hb2filt : b2 ∈ (b :: rest).filter (pcand mr cur) := by
          rw [hfilter]
          exact List.mem_cons_of_mem _ (List.mem_filter.mpr ⟨hb2mem, hb2cur⟩)
        have hmemM : b2.activeConns ∈
            ((b :: rest).filter (pcand mr cur)).map (fun x => x.activeConns) :=
          List.mem_map_of_mem _ hb2filt
        have hMlt : M < b.activeConns :=
          lt_of_le_of_lt (listMinInt_le _ _ hmemM) hlt2
        set M2 := listMinInt ((rest.filter (pcand mr b.activeConns)).map
          (fun x => x.activeConns)) with hM2
        have hsubpred : ∀ x, pcand mr b.activeConns x = true →
            pcand mr cur x = true := by
          intro x hx
          obtain ⟨h1, h2, h3⟩ := (pcand_iff _ _ _).mp hx
          exact (pcand_iff _ _ _).mpr ⟨h1, h2, by omega⟩
        have hne2 : rest.filter (pcand mr b.activeConns) ≠ [] := by
          intro hnil
          have hmem : b2 ∈ rest.filter (pcand mr b.activeConns) :=
            List.mem_filter.mpr ⟨hb2mem, hb2⟩
          rw [hnil] at hmem
          cases hmem
        have hle1 : M ≤ M2 := by
          have hne2m : (rest.filter (pcand mr b.activeConns)).map
              (fun x => x.activeConns) ≠ [] := by
            intro hnil
            rw [List.map_eq_nil_iff] at hnil
            exact hne2 hnil
          obtain ⟨y, hy, hyv⟩ := List.mem_map.mp (listMinInt_mem _ hne2m)
          obtain ⟨hymem, hyp⟩ := List.mem_filter.mp hy
          have hyfilt : y ∈ (b :: rest).filter (pcand mr cur) := by
            rw [hfilter]
            exact List.mem_cons_of_mem _
              (List.mem_filter.mpr ⟨hymem, hsubpred y hyp⟩)
          have hled := listMinInt_le (((b :: rest).filter (pcand mr cur)).map
            (fun x => x.activeConns)) y.activeConns (List.mem_map_of_mem _ hyfilt)
          omega
        have hle2 : M2 ≤ M := by
          have hnem : ((b :: rest).filter (pcand mr cur)).map
              (fun x => x.activeConns) ≠ [] := by
            rw [hfilter]
            simp
          obtain ⟨y, hy, hyv⟩ := List.mem_map.mp (listMinInt_mem _ hnem)
          obtain ⟨hymem, hyp⟩ := List.mem_filter.mp hy
          rcases List.mem_cons.mp hymem with hcase | hcase
          · exfalso
            rw [hcase] at hyv
            omega
          · obtain ⟨h1, h2, _⟩ := (pcand_iff _ _ _).mp hyp
            have hylt : y.activeConns < b.activeConns := by omega
            have hyfilt2 : y ∈ rest.filter (pcand mr b.activeConns) :=
              List.mem_filter.mpr ⟨hcase, (pcand_iff _ _ _).mpr ⟨h1, h2, hylt⟩⟩
            have hled := listMinInt_le ((rest.filter (pcand mr b.activeConns)).map
              (fun x => x.activeConns)) y.activeConns
              (List.mem_map_of_mem _ hyfilt2)
            omega
        have hMM : M2 = M := by omega
        have hbskip : ¬ ((pcand mr cur b && decide (b.activeConns = M)) = true) := by
          simp only [Bool.and_eq_true, decide_eq_true_eq, not_and]
          intro _ hEq
          omega
        have hskipeq := @List.find?_cons_of_neg Server
          (fun x => pcand mr cur x && decide (x.activeConns = M)) b rest hbskip
        rw [hstep, ih (some b) b.activeConns ⟨b2, hb2mem, hb2⟩, ← hM2, hMM]
        rw [hskipeq]
        refine find?_congr_mem rest _ _ ?_
        intro x _
        by_cases hxv : x.activeConns = M
        · have hxlt : M < b.activeConns := by omega
          have hxcur : M < cur := by omega
          simp [pcand, hxv, hxlt, hxcur]
        · simp [pcand, hxv]
      case neg =>
        push_neg at hex2
        have hstay : selectLoop rest mr (some b) b.activeConns = some b := by
          refine selectLoop_stay rest mr (some b) b.activeConns ?_
          intro x hx
          have hnp := hex2 x hx
          simpa using hnp
        have hMeq : listMinInt (((b :: rest).filter (pcand mr cur)).map
            (fun x => x.activeConns)) = b.activeConns := by
          rw [hfilter, List.map_cons]
          refine listMinInt_cons_of_le _ _ ?_
          intro v hv
          obtain ⟨y, hy, hyv⟩ := List.mem_map.mp hv
          obtain ⟨hymem, hyp⟩ := List.mem_filter.mp hy
          obtain ⟨h1, h2, _⟩ := (pcand_iff _ _ _).mp hyp
          have hnp : ¬ pcand mr b.activeConns y = true := by
            have hx := hex2 y hymem
            simpa using hx
          have hge : ¬ y.activeConns < b.activeConns := by
            intro hlt2
            exact hnp ((pcand_iff _ _ _).mpr ⟨h1, h2, hlt2⟩)
          omega
        have hbpos : (pcand mr cur b && decide (b.activeConns =
            listMinInt (((b :: rest).filter (pcand mr cur)).map
              (fun x => x.activeConns)))) = true := by
          rw [hMeq]
          simp [hc]
        have hposeq := @List.find?_cons_of_pos Server
          (fun x => pcand mr cur x && decide (x.activeConns =
            listMinInt (((b :: rest).filter (pcand mr cur)).map
              (fun y => y.activeConns)))) b rest hbpos
        rw [hstep, hstay, hposeq]
    case neg =>
      have hstep : selectLoop (b :: rest) mr acc cur =
          selectLoop rest mr acc cur := by
        simp only [selectLoop]
        by_cases ha : b.alive = true
        · have hcond : ¬(b.retention = mr ∧ cur > b.activeConns) := by
            rintro ⟨h1, h2⟩
            exact hc ((pcand_iff _ _ _).mpr ⟨ha, h1, by omega⟩)
          rw [if_pos ha, if_neg hcond]
        · rw [if_neg ha]
      have hexr : ∃ b2 ∈ rest, pcand mr cur b2 = true := by
        obtain ⟨b0, hb0, hp0⟩ := hex
        rcases List.mem_cons.mp hb0 with h | h
        · exact absurd hp0 (h ▸ hc)
        · exact ⟨b0, h, hp0⟩
      have hfilter : (b :: rest).filter (pcand mr cur) =
          rest.filter (pcand mr cur) := List.filter_cons_of_neg hc
      have hbneg : ¬ ((pcand mr cur b && decide (b.activeConns =
          listMinInt ((rest.filter (pcand mr cur)).map
            (fun x => x.activeConns)))) = true) := by
        simp [hc]
      have hnegeq := @List.find?_cons_of_neg Server
        (fun x => pcand mr cur x && decide (x.activeConns =
          listMinInt ((rest.filter (pcand mr cur)).map
            (fun y => y.activeConns)))) b rest hbneg
      rw [hstep, hfilter, ih acc cur hexr, hnegeq]

lemma mem_eligible (b : Server) (bs : List Server) (d : Int) :
    b ∈ eligibleOf bs d ↔ b ∈ bs ∧ b.alive = true ∧ d < b.retention := by
  simp [eligibleOf, List.mem_filter, and_assoc]

lemma Target_core (pool : List (String × List Server)) (cid : String) (d : Int)
    (bs : List Server) (hbs : lookupPool pool cid = some bs)
    (hne : eligibleOf bs d ≠ [])
    (hcm : minCandConns bs d < maxInt32 ∨ (eligibleOf bs d).length = 1) :
    ∃ b, Target pool cid d = some b ∧ b.alive = true ∧ d < b.retention ∧
      b.retention = minRetention bs d ∧ b.activeConns = minCandConns bs d ∧
      (candidatesOf bs d).find?
        (fun x => decide (x.activeConns = minCandConns bs d)) = some b := by
  have hTdef : Target pool cid d =
      (if (eligibleOf bs d).length = 0 then none
       else if (eligibleOf bs d).length = 1 then (eligibleOf bs d).head?
       else selectLoop (eligibleOf bs d)
         (listMinInt ((eligibleOf bs d).map (fun b => b.retention))) none maxInt32) := by
    simp only [Target, hbs]
  by_cases hlen1 : (eligibleOf bs d).length = 1
  · obtain ⟨b, hb⟩ := List.length_eq_one.mp hlen1
    have hbmem : b ∈ eligibleOf bs d := by rw [hb]; exact List.mem_cons_self b []
    obtain ⟨-, halive, hret⟩ := (mem_eligible b bs d).mp hbmem
    have hmr : minRetention bs d = b.retention := by
      simp [minRetention, hb, listMinInt]
    have hcand : candidatesOf bs d = [b] := by
      simp [candidatesOf, hb, hmr]
    have hmc : minCandConns bs d = b.activeConns := by
      simp [minCandConns, hcand, listMinInt]
    refine ⟨b, ?_, halive, hret, hmr.symm, hmc.symm, ?_⟩
    · rw [hTdef, hb]
      simp
    · rw [hcand, hmc]
      simp
  · have hmc32 : minCandConns bs d < maxInt32 := by
      rcases hcm with h | h
      · exact h
      · exact absurd h hlen1
    have hlen0 : ¬ (eligibleOf bs d).length = 0 := by
      intro h0
      exact hne (List.length_eq_zero.mp h0)
    have hT2 : Target pool cid d = selectLoop (eligibleOf bs d)
        (minRetention bs d) none maxInt32 := by
      rw [hTdef, if_neg hlen0, if_neg hlen1]
      rfl
    have hcne : candidatesOf bs d ≠ [] := by
      have hnem : (eligibleOf bs d).map (fun b => b.retention) ≠ [] := by
        intro h
        rw [List.map_eq_nil_iff] at h
        exact hne h
      obtain ⟨c, hcmem, hcv⟩ := List.mem_map.mp (listMinInt_mem _ hnem)
      intro hnil
      have hcmem2 : c ∈ candidatesOf bs d := by
        refine List.mem_filter.mpr ⟨hcmem, ?_⟩
        simp only [decide_eq_true_eq]
        exact hcv
      rw [hnil] at hcmem2
      cases hcmem2
    have hnem2 : (candidatesOf bs d).map (fun b => b.activeConns) ≠ [] := by
      intro h
      rw [List.map_eq_nil_iff] at h
      exact hcne h
    obtain ⟨w, hwmem, hwv⟩ := List.mem_map.mp (listMinInt_mem _ hnem2)
    have hwv2 : w.activeConns = minCandConns bs d := hwv
    obtain ⟨hwel, hwretd⟩ := List.mem_filter.mp hwmem
    have hwret : w.retention = minRetention bs d := by
      simpa using hwretd
    obtain ⟨-, hwalive, hwd⟩ := (mem_eligible w bs d).mp hwel
    have hwp : pcand (minRetention bs d) maxInt32 w = true := by
      refine (pcand_iff _ _ _).mpr ⟨hwalive, hwret, ?_⟩
      omega
    have hex : ∃ x ∈ eligibleOf bs d, pcand (minRetention bs d) maxInt32 x = true :=
      ⟨w, hwel, hwp⟩
    have hsel := selectLoop_find (eligibleOf bs d) (minRetention bs d)
      none maxInt32 hex
    have hwfilt : w ∈ (eligibleOf bs d).filter (pcand (minRetention bs d) maxInt32) :=
      List.mem_filter.mpr ⟨hwel, hwp⟩
    have hle1 : listMinInt (((eligibleOf bs d).filter
        (pcand (minRetention bs d) maxInt32)).map (fun x => x.activeConns)) ≤
        minCandConns bs d := by
      have hml := listMinInt_le (((eligibleOf bs d).filter
        (pcand (minRetention bs d) maxInt32)).map (fun x => x.activeConns))
        w.activeConns (List.mem_map_of_mem _ hwfilt)
      omega
    have hle2 : minCandConns bs d ≤ listMinInt (((eligibleOf bs d).filter
        (pcand (minRetention bs d) maxInt32)).map (fun x => x.activeConns)) := by
      have hnem3 : ((eligibleOf bs d).filter
          (pcand (minRetention bs d) maxInt32)).map (fun x => x.activeConns) ≠ [] := by
        intro h
        rw [List.map_eq_nil_iff] at h
        rw [h] at hwfilt
        cases hwfilt
      obtain ⟨y, hymem, hyv⟩ := List.mem_map.mp (listMinInt_mem _ hnem3)
      have hyv2 : y.activeConns = listMinInt (((eligibleOf bs d).filter
        (pcand (minRetention bs d) maxInt32)).map (fun x => x.activeConns)) := hyv
      obtain ⟨hyel, hyp⟩ := List.mem_filter.mp hymem
      obtain ⟨hyal, hyret, hycon⟩ := (pcand_iff _ _ _).mp hyp
      have hycand : y ∈ candidatesOf bs d := by
        refine List.mem_filter.mpr ⟨hyel, ?_⟩
        simp only [decide_eq_true_eq]
        exact hyret
      have hml := listMinInt_le ((candidatesOf bs d).map (fun b => b.activeConns))
        y.activeConns (List.mem_map_of_mem _ hycand)
      omega
    have hMeq : listMinInt (((eligibleOf bs d).filter
        (pcand (minRetention bs d) maxInt32)).map (fun x => x.activeConns)) =
        minCandConns bs d := le_antisymm hle1 hle2
    have hpq : ∀ x ∈ eligibleOf bs d,
        (pcand (minRetention bs d) maxInt32 x &&
          decide (x.activeConns = listMinInt (((eligibleOf bs d).filter
            (pcand (minRetention bs d) maxInt32)).map (fun x => x.activeConns)))) =
        (decide (x.retention = minRetention bs d) &&
          decide (x.activeConns = minCandConns bs d)) := by
      intro x hxel
      obtain ⟨-, hxal, -⟩ := (mem_eligible x bs d).mp hxel
      by_cases hxv : x.activeConns = minCandConns bs d
      · have hxlt : x.activeConns < maxInt32 := by omega
        simp [pcand, hxal, hxv, hxlt, hMeq, hmc32]
      · have hxv2 : ¬ x.activeConns = listMinInt (((eligibleOf bs d).filter
            (pcand (minRetention bs d) maxInt32)).map (fun x => x.activeConns)) := by
          rw [hMeq]
          exact hxv
        simp [pcand, hxv, hxv2]
    have hfind1 : (eligibleOf bs d).find?
        (fun b => pcand (minRetention bs d) maxInt32 b &&
          decide (b.activeConns = listMinInt (((eligibleOf bs d).filter
            (pcand (minRetention bs d) maxInt32)).map (fun x => x.activeConns)))) =
        (eligibleOf bs d).find? (fun b => decide (b.retention = minRetention bs d) &&
          decide (b.activeConns = minCandConns bs d)) :=
      find?_congr_mem _ _ _ hpq
    have hfind2 : (candidatesOf bs d).find?
        (fun x => decide (x.activeConns = minCandConns bs d)) =
        (eligibleOf bs d).find? (fun b => decide (b.retention = minRetention bs d) &&
          decide (b.activeConns = minCandConns bs d)) :=
      find?_filter_fuse (eligibleOf bs d) _ _
    have hiss : ((candidatesOf bs d).find?
        (fun x => decide (x.activeConns = minCandConns bs d))).isSome = true :=
      List.find?_isSome.mpr ⟨w, hwmem, by simp [hwv2]⟩
    obtain ⟨b, hfind⟩ := Option.isSome_iff_exists.mp hiss
    have hbcand := List.mem_of_find?_eq_some hfind
    obtain ⟨hbel, hbretd⟩ := List.mem_filter.mp hbcand
    have hbret : b.retention = minRetention bs d := by simpa using hbretd
    have hbconns : b.activeConns = minCandConns bs d := by
      have hps := List.find?_some hfind
      simpa using hps
    obtain ⟨-, hbal, hbd⟩ := (mem_eligible b bs d).mp hbel
    refine ⟨b, ?_, hbal, hbd, hbret, hbconns, hfind⟩
    rw [hT2, hsel, hfind1, ← hfind2, hfind]

/-- Concrete pool refuting claim C1: two alive backends, both with
retention 10 (query window 5) and `math.MaxInt32` active connections. -/
def c1pool : List (String × List Server) :=
  [("c", [⟨true, 10, 2147483647⟩, ⟨true, 10, 2147483647⟩])]

/-- C1 counterexample: the eligible set is nonempty (both backends are
alive and retain longer than the window), yet `Target` returns `none`,
because the least-connections accumulator starts at `math.MaxInt32` and
`activeConnections >= MaxInt32` can never strictly improve on it.  The
claim promises a backend is returned whenever the eligible set is
nonempty. -/
theorem c1_counterexample :
    eligibleOf [⟨true, 10, 2147483647⟩, ⟨true, 10, 2147483647⟩] 5 =
      [⟨true, 10, 2147483647⟩, ⟨true, 10, 2147483647⟩] ∧
    Target c1pool "c" 5 = none := by decide

/-- C1 (amended): if some registered backend of the cluster is alive with
retention strictly greater than the query window, and additionally the
smallest active-connection count among the minimum-retention candidates is
below `math.MaxInt32` (or the eligible set is a singleton), then `Target`
returns an eligible backend whose retention is the minimum over the
eligible set and whose connection count is the smallest among the
minimum-retention candidates, the first such candidate in registration
order; a backend whose retention equals the window is never eligible. -/
theorem c1_target_min_retention_least_conns
    (pool : List (String × List Server)) (cid : String) (d : Int)
    (bs : List Server) (hbs : lookupPool pool cid = some bs)
    (hne : eligibleOf bs d ≠ [])
    (hcm : minCandConns bs d < maxInt32 ∨ (eligibleOf bs d).length = 1) :
    (∃ b, Target pool cid d = some b ∧ b.alive = true ∧ d < b.retention ∧
      b.retention = minRetention bs d ∧ b.activeConns = minCandConns bs d ∧
      (candidatesOf bs d).find?
        (fun x => decide (x.activeConns = minCandConns bs d)) = some b) ∧
    (∀ x ∈ bs, x.retention = d → x ∉ eligibleOf bs d) := by
  refine ⟨Target_core pool cid d bs hbs hne hcm, ?_⟩
  intro x _ hxd hmem
  obtain ⟨-, -, hlt⟩ := (mem_eligible x bs d).mp hmem
  omega

/-- Backends of the C1 witness pool. -/
def c1wbs : List Server := [⟨true, 20, 1⟩, ⟨true, 10, 7⟩, ⟨true, 10, 4⟩]

/-- C1 witness: the amended theorem applied to a concrete pool. -/
theorem c1_witness :
    lookupPool [("c", c1wbs)] "c" = some c1wbs ∧
    eligibleOf c1wbs 5 ≠ [] ∧ minCandConns c1wbs 5 < maxInt32 ∧
    ((∃ b, Target [("c", c1wbs)] "c" 5 = some b ∧ b.alive = true ∧
        (5 : Int) < b.retention ∧
        b.retention = minRetention c1wbs 5 ∧
        b.activeConns = minCandConns c1wbs 5 ∧
        (candidatesOf c1wbs 5).find?
          (fun x => decide (x.activeConns = minCandConns c1wbs 5)) = some b) ∧
      (∀ x ∈ c1wbs, x.retention = 5 → x ∉ eligibleOf c1wbs 5)) :=
  ⟨by decide, by decide, by decide,
    c1_target_min_retention_least_conns [("c", c1wbs)] "c" 5 c1wbs
      (by decide) (by decide) (Or.inl (by decide))⟩

/-- C3: when the cluster ID is absent from the pool, or no registered
backend of the cluster is both alive and retains strictly longer than the
query window, `Target` returns `none` and the frontend answers the client
with 503 Service Unavailable instead of forwarding. -/
theorem c3_unknown_or_no_eligible_503
    (pool : List (String × List Server)) (cid : String) (qp : Option QueryParamsM)
    (h : lookupPool pool cid = none ∨
      ∃ bs, lookupPool pool cid = some bs ∧
        ∀ b ∈ bs, ¬(b.alive = true ∧ queryPeriodOf qp < b.retention)) :
    Target pool cid (queryPeriodOf qp) = none ∧
    Serve pool cid qp = .serviceUnavailable := by
  have hT : Target pool cid (queryPeriodOf qp) = none := by
    rcases h with h | ⟨bs, hbs, hall⟩
    · simp [Target, h]
    · have hnil : eligibleOf bs (queryPeriodOf qp) = [] := by
        refine List.eq_nil_iff_forall_not_mem.mpr ?_
        intro b hb
        obtain ⟨hmem, hal, hlt⟩ := (mem_eligible b bs _).mp hb
        exact hall b hmem ⟨hal, hlt⟩
      simp [Target, hbs, hnil]
  refine ⟨hT, ?_⟩
  simp [Serve, hT]

/-- C3 witness: the theorem applied to the empty pool (unknown cluster)
at window zero. -/
theorem c3_witness :
    lookupPool ([] : List (String × List Server)) "c" = none ∧
    Target ([] : List (String × List Server)) "c" (queryPeriodOf none) = none ∧
    Serve ([] : List (String × List Server)) "c" none = .serviceUnavailable :=
  ⟨rfl, c3_unknown_or_no_eligible_503 [] "c" none (Or.inl rfl)⟩

/-- C9 counterexample: with query parameters absent the window is zero,
but (i) an alive backend with retention 0 is not eligible (the filter
needs `0 < retention`), so the pool with a single alive zero-retention
backend yields 503 although the claim makes every alive backend eligible;
and (ii) in a pool of two alive backends where the shortest-retention one
holds `math.MaxInt32` active connections the router returns 503 rather
than routing to the shortest retention. -/
theorem c9_counterexample :
    ((⟨true, 0, 5⟩ : Server).alive = true ∧
      Serve [("c", [⟨true, 0, 5⟩])] "c" none = .serviceUnavailable) ∧
    ((⟨true, 10, 2147483647⟩ : Server).alive = true ∧
      (⟨true, 20, 0⟩ : Server).alive = true ∧
      Serve [("c", [⟨true, 10, 2147483647⟩, ⟨true, 20, 0⟩])] "c" none =
        .serviceUnavailable) := by decide

/-- C9 (amended): an absent query-parameters context value makes the
frontend route with window zero; every alive backend with positive
retention is then eligible; and when the eligible set at window zero is
nonempty and the smallest connection count among its minimum-retention
candidates is below `math.MaxInt32` (or the eligible set is a singleton),
the request is forwarded to a backend whose retention is the minimum over
the eligible set. -/
theorem c9_zero_window_routing :
    (∀ (pool : List (String × List Server)) (cid : String),
      Serve pool cid none =
        (match Target pool cid 0 with
         | some t => ServeResult.forwarded t
         | none => ServeResult.serviceUnavailable)) ∧
    (∀ (bs : List Server) (b : Server), b ∈ bs → b.alive = true →
      0 < b.retention → b ∈ eligibleOf bs 0) ∧
    (∀ (pool : List (String × List Server)) (cid : String) (bs : List Server),
      lookupPool pool cid = some bs → eligibleOf bs 0 ≠ [] →
      (minCandConns bs 0 < maxInt32 ∨ (eligibleOf bs 0).length = 1) →
      ∃ b, Serve pool cid none = .forwarded b ∧
        b.retention = minRetention bs 0 ∧
        ∀ x ∈ eligibleOf bs 0, minRetention bs 0 ≤ x.retention) := by
  refine ⟨?_, ?_, ?_⟩
  · intro pool cid
    rfl
  · intro bs b hmem hal hret
    exact (mem_eligible b bs 0).mpr ⟨hmem, hal, hret⟩
  · intro pool cid bs hbs hne hcm
    obtain ⟨b, hT, hal, hd, hret, hconns, hfind⟩ :=
      Target_core pool cid 0 bs hbs hne hcm
    refine ⟨b, ?_, hret, ?_⟩
    · simp [Serve, queryPeriodOf, hT]
    · intro x hx
      exact listMinInt_le _ x.retention (List.mem_map_of_mem _ hx)

/-- Backends of the C9 witness pool. -/
def c9wbs : List Server := [⟨true, 30, 3⟩, ⟨true, 10, 6⟩]

/-- C9 witness: the amended theorem applied to a concrete pool with the
query-parameters context value absent. -/
theorem c9_witness :
    lookupPool [("c", c9wbs)] "c" = some c9wbs ∧
    eligibleOf c9wbs 0 ≠ [] ∧ minCandConns c9wbs 0 < maxInt32 ∧
    (∃ b, Serve [("c", c9wbs)] "c" none = .forwarded b ∧
      b.retention = minRetention c9wbs 0 ∧
      ∀ x ∈ eligibleOf c9wbs 0, minRetention c9wbs 0 ≤ x.retention) :=
  ⟨by decide, by decide, by decide,
    c9_zero_window_routing.2.2 [("c", c9wbs)] "c" c9wbs
      (by decide) (by decide) (Or.inl (by decide))⟩

/-! ## Cgroup collector: string utilities

Go `strings` helpers used by the collector, re-expressed over `List Char`
so that every function is structurally recursive and kernel-evaluable. -/

/-- `strings.Split` with a one-character separator. -/
def splitOnCharL (sep : Char) : List Char → List (List Char)
  | [] => [[]]
  | c :: cs =>
    let r := splitOnCharL sep cs
    if c = sep then [] :: r
    else
      match r with
      | [] => [[c]]
      | h :: t => (c :: h) :: t

/-- Whitespace test of `strings.TrimSpace` (ASCII subset; the collector
only ever trims digits surrounded by ASCII space). -/
def isSpc (c : Char) : Bool :=
  c = ' ' || c = '\t' || c = '\n' || c = '\r'

/-- `strings.TrimSpace` over the character list. -/
def trimL (cs : List Char) : List Char :=
  ((cs.dropWhile isSpc).reverse.dropWhile isSpc).reverse

/-- `strings.TrimSpace` on strings. -/
def goTrim (s : String) : String := String.mk (trimL s.toList)

/-- `strings.TrimSuffix(s, "\n")`: drop one trailing newline if present. -/
def dropNlSuffix (cs : List Char) : List Char :=
  match cs.reverse with
  | '\n' :: r => r.reverse
  | _ => cs

/-- `strings.TrimSuffix(s, "\n")` on strings. -/
def stringDropNl (s : String) : String := String.mk (dropNlSuffix s.toList)

/-- List-prefix test. -/
def startsWithL : List Char → List Char → Bool
  | [], _ => true
  | _ :: _, [] => false
  | p :: ps, c :: cs => p = c && startsWithL ps cs

/-- Substring containment, as used by the `isChild` closures
(`strings.Contains`). -/
def containsL (pat : List Char) : List Char → Bool
  | [] => startsWithL pat []
  | c :: cs => startsWithL pat (c :: cs) || containsL pat cs

/-- `strings.Contains` on strings. -/
def containsSub (s pat : String) : Bool := containsL pat.toList s.toList

/-- Accumulator of `strconv.Atoi` over decimal digits. -/
def digitsAux : List Char → Nat → Option Nat
  | [], acc => some acc
  | c :: cs, acc =>
    if c.isDigit then digitsAux cs (10 * acc + (c.toNat - 48)) else none

/-- Value of a nonempty all-digit string, else `none`. -/
def digitsVal : List Char → Option Nat
  | [] => none
  | c :: cs => digitsAux (c :: cs) 0

/-- `strconv.Atoi` over a character list: optional sign, then a nonempty
run of digits, nothing else (overflow is not modelled; the cpuset values
in scope are small). -/
def goAtoiL : List Char → Option Int
  | '+' :: rest => (digitsVal rest).map Int.ofNat
  | '-' :: rest => (digitsVal rest).map (fun v => -(Int.ofNat v))
  | cs => (digitsVal cs).map Int.ofNat

/-! ## Cgroup collector: cpuset parsing (`cgroupCollector.parseCPUSet`) -/

/-- The inclusive integer range `start..end` rendered as decimal strings,
one per CPU, exactly as the `for e := start; e <= end; e++` loop appends
`strconv.Itoa(e)`. -/
def expandRange (st en : Int) : List String :=
  (List.range (en + 1 - st).toNat).map (fun (k : Nat) => toString (st + (k : Int)))

/-- The component loop of `cgroupCollector.parseCPUSet` (frontend.go lines
899-925): `start`/`end` are the Go locals declared outside the loop, so a
component that splits into neither one nor two pieces silently reuses the
previous bounds. -/
def parseComps : List (List Char) → Int → Int → Option (List String)
  | [], _, _ => some []
  | r :: rest, st, en =>
    match splitOnCharL '-' r with
    | [b] =>
      match goAtoiL b with
      | none => none
      | some v =>
        match parseComps rest v v with
        | none => none
        | some tail => some (expandRange v v ++ tail)
    | [b1, b2] =>
      match goAtoiL b1 with
      | none => none
      | some v1 =>
        match goAtoiL b2 with
        | none => none
        | some v2 =>
          match parseComps rest v1 v2 with
          | none => none
          | some tail => some (expandRange v1 v2 ++ tail)
    | _ =>
      match parseComps rest st en with
      | none => none
      | some tail => some (expandRange st en ++ tail)

/-- `cgroupCollector.parseCPUSet` (frontend.go lines 888-928): empty input
is an error; otherwise split on commas and expand every component. -/
def parseCPUSet (s : String) : Option (List String) :=
  if s = "" then none
  else parseComps (splitOnCharL ',' s.toList) 0 0

/-- Denotation of one cpuset component following the specification text:
an integer denotes a singleton, `a-b` denotes the inclusive range; any
other shape is not a well-formed component. -/
def compDenote (r : List Char) : Option (Finset Int) :=
  match splitOnCharL '-' r with
  | [b] =>
    match goAtoiL b with
    | none => none
    | some v => some {v}
  | [b1, b2] =>
    match goAtoiL b1 with
    | none => none
    | some v1 =>
      match goAtoiL b2 with
      | none => none
      | some v2 => some (Finset.Icc v1 v2)
  | _ => none

/-- Denotations of all components of a cpuset expression. -/
def compDenotes : List (List Char) → Option (List (Finset Int))
  | [] => some []
  | r :: rest =>
    match compDenote r with
    | none => none
    | some t =>
      match compDenotes rest with
      | none => none
      | some ts => some (t :: ts)

/-- The component sets of a cpuset expression (specification reading). -/
def compSets (s : String) : Option (List (Finset Int)) :=
  if s = "" then none else compDenotes (splitOnCharL ',' s.toList)

/-- The set denoted by a cpuset expression per the specification: the
union of the denotations of its comma-separated components. -/
def cpusetDenotes (s : String) : Option (Finset Int) :=
  (compSets s).map (fun ts => ts.foldr (fun a b => a ∪ b) ∅)

/-! ## Cgroup collector: stats data model

The containerd stats protobufs consumed by `statsV1` / `statsV2`, with
exactly the getters the collector reads.  `Option` marks the sub-messages
the code nil-checks. -/

/-- Host memory info from `/proc/meminfo` (the `hostMemInfo` map); a key
missing from the Go map reads as zero, so the two consumed entries are
plain values. -/
structure HostMemInfo where
  memTotal : ℚ
  swapTotal : ℚ
deriving DecidableEq

/-- The kernel "max" sentinel: `math.MaxUint64`. -/
def maxUInt64 : Nat := 18446744073709551615

/-- One `rdma.current` record: device name, HCA handles, HCA objects. -/
structure RdmaEntryM where
  device : String
  hcaHandles : Nat
  hcaObjects : Nat
deriving DecidableEq

/-- `cpu.stat` plus `cpu.pressure` full total (microseconds). -/
structure V2CPUStatM where
  userUsec : Nat
  systemUsec : Nat
  usageUsec : Nat
  psiFullTotalUsec : Option Nat
deriving DecidableEq

/-- v2 memory stats: `memory.current`, `memory.max`, `memory.stat` file and
anon, `memory.swap.current`, `memory.swap.max`, `memory.pressure`. -/
structure V2MemoryM where
  usage : Nat
  usageLimit : Nat
  file : Nat
  anon : Nat
  swapUsage : Nat
  swapLimit : Nat
  psiFullTotalUsec : Option Nat
deriving DecidableEq

/-- `memory.events` oom count. -/
structure V2MemoryEventsM where
  oom : Nat
deriving DecidableEq

/-- One `io.stat` row. -/
structure V2IoEntryM where
  major : Nat
  minor : Nat
  rbytes : Nat
  wbytes : Nat
  rios : Nat
  wios : Nat
deriving DecidableEq

/-- `io.stat` rows plus `io.pressure` full total. -/
structure V2IoM where
  usage : List V2IoEntryM
  psiFullTotalUsec : Option Nat
deriving DecidableEq

/-- The cgroups v2 stats message. -/
structure V2StatsM where
  cpu : Option V2CPUStatM
  memory : Option V2MemoryM
  memoryEvents : Option V2MemoryEventsM
  io : Option V2IoM
  rdma : Option (List RdmaEntryM)
deriving DecidableEq

/-- `cpuacct` usage in nanoseconds (`GetCPU().GetUsage()`). -/
structure V1CPUUsageM where
  user : Nat
  kernel : Nat
  total : Nat
deriving DecidableEq

/-- A v1 usage/limit/failcnt triple (memory or swap). -/
structure V1MemEntryM where
  usage : Nat
  limit : Nat
  failcnt : Nat
deriving DecidableEq

/-- v1 memory stats: total RSS, total cache, usage and swap triples. -/
structure V1MemoryM where
  totalRSS : Nat
  totalCache : Nat
  usage : Option V1MemEntryM
  swap : Option V1MemEntryM
deriving DecidableEq

/-- One `blkio.io_service_bytes_recursive` / `io_serviced_recursive` row. -/
structure V1BlkioEntryM where
  op : String
  major : Nat
  minor : Nat
  value : Nat
deriving DecidableEq

/-- The two v1 blkio recursive stat lists. -/
structure V1BlkioM where
  ioServiceBytesRecursive : List V1BlkioEntryM
  ioServicedRecursive : List V1BlkioEntryM
deriving DecidableEq

/-- The cgroups v1 stats message. -/
structure V1StatsM where
  cpu : Option V1CPUUsageM
  memory : Option V1MemoryM
  blkio : Option V1BlkioM
  rdma : Option (List RdmaEntryM)
deriving DecidableEq

/-- Outcome of the load-and-stat preamble of `statsV1` / `statsV2`: the
`Load` call can fail, `Stat` can fail, the returned stats can be nil, or
stats are available. -/
inductive LoadResult (σ : Type) where
  | loadFailed
  | statFailed
  | nilStats
  | ok (stats : σ)
deriving DecidableEq

/-- Boolean success test of a `LoadResult`. -/
def LoadResult.isOkB {σ : Type} : LoadResult σ → Bool
  | .ok _ => true
  | _ => false

/-- Per-cgroup environment of one `statsV2` call: what the cgroup2 library
returns, and the content of `cpuset.cpus.effective` if the file exists and
is readable. -/
structure CgroupEnvV2 where
  load : LoadResult V2StatsM
  cpuset : Option String

/-- Per-cgroup environment of one `statsV1` call. -/
structure CgroupEnvV1 where
  load : LoadResult V1StatsM
  cpuset : Option String

/-- The `cgMetric` record (frontend.go lines 535-560): float64 fields as
exact rationals, the per-device Go maps as association lists. -/
structure CgMetricM where
  path : String
  uuid : String
  cpuUser : ℚ
  cpuSystem : ℚ
  cpuTotal : ℚ
  cpus : Nat
  cpuPressure : ℚ
  memoryRSS : ℚ
  memoryCache : ℚ
  memoryUsed : ℚ
  memoryTotal : ℚ
  memoryFailCount : ℚ
  memswUsed : ℚ
  memswTotal : ℚ
  memswFailCount : ℚ
  memoryPressure : ℚ
  blkioReadBytes : List (String × ℚ)
  blkioWriteBytes : List (String × ℚ)
  blkioReadReqs : List (String × ℚ)
  blkioWriteReqs : List (String × ℚ)
  blkioPressure : ℚ
  rdmaHCAHandles : List (String × ℚ)
  rdmaHCAObjects : List (String × ℚ)
  err : Bool
deriving DecidableEq

/-- The pre-allocated metric for one discovered cgroup: path and uuid set,
every stat field zero, maps empty, no error. -/
def CgMetricM.init (path uuid : String) : CgMetricM :=
  { path := path, uuid := uuid, cpuUser := 0, cpuSystem := 0, cpuTotal := 0,
    cpus := 0, cpuPressure := 0, memoryRSS := 0, memoryCache := 0,
    memoryUsed := 0, memoryTotal := 0, memoryFailCount := 0, memswUsed := 0,
    memswTotal := 0, memswFailCount := 0, memoryPressure := 0,
    blkioReadBytes := [], blkioWriteBytes := [], blkioReadReqs := [],
    blkioWriteReqs := [], blkioPressure := 0, rdmaHCAHandles := [],
    rdmaHCAObjects := [], err := false }

/-- Association-list read, first match (a Go map read). -/
def lookupA {α : Type} : List (String × α) → String → Option α
  | [], _ => none
  | (k, v) :: rest, key => if k = key then some v else lookupA rest key

/-- Association-list write (a Go map assignment: overwrite or append). -/
def upsertA {α : Type} : List (String × α) → String → α → List (String × α)
  | [], key, v => [(key, v)]
  | (k0, v0) :: rest, key, v =>
    if k0 = key then (key, v) :: rest else (k0, v0) :: upsertA rest key v

/-- The `major:minor` key used against the `blockDevices` map. -/
def devKey (major minor : Nat) : String :=
  toString major ++ ":" ++ toString minor

/-! ## Cgroup collector: `statsV2` / `statsV1`

Each comment-delimited block of the Go functions becomes one `apply*`
function (with its loop body a named accumulator); the full reader is
their composition in source order. -/

/-- The CPU field updates of the v2 CPU block. -/
def cpuUpdateV2 (c : V2CPUStatM) (m : CgMetricM) : CgMetricM :=
  { m with cpuUser := (c.userUsec : ℚ) / 1000000,
           cpuSystem := (c.systemUsec : ℚ) / 1000000,
           cpuTotal := (c.usageUsec : ℚ) / 1000000 }

/-- The v2 CPU block (frontend.go lines 1120-1128): microseconds over 1e6,
PSI only when the sub-message is present. -/
def applyCPUv2 (stats : V2StatsM) (m : CgMetricM) : CgMetricM :=
  match stats.cpu with
  | none => m
  | some c =>
    match c.psiFullTotalUsec with
    | none => cpuUpdateV2 c m
    | some t => { cpuUpdateV2 c m with cpuPressure := (t : ℚ) / 1000000 }

/-- The `getCPUs` block (frontend.go lines 930-958 and 1130-1132): the
cpuset file content is trimmed of a trailing newline and parsed; any
failure (missing file, read error, parse error) leaves `cpus` untouched
and does not set `err`. -/
def applyCPUs (cpuset : Option String) (m : CgMetricM) : CgMetricM :=
  match cpuset with
  | none => m
  | some content =>
    match parseCPUSet (stringDropNl content) with
    | none => m
    | some l => { m with cpus := l.length }

/-- The memory field updates of the v2 memory block, with the
`math.MaxUint64` sentinel substitutions (frontend.go lines 1136-1162). -/
def memUpdateV2 (host : HostMemInfo) (mem : V2MemoryM) (m : CgMetricM) :
    CgMetricM :=
  { m with
    memoryUsed := (mem.usage : ℚ),
    memoryTotal :=
      if mem.usageLimit = maxUInt64 ∧ host.memTotal > 0 then host.memTotal
      else (mem.usageLimit : ℚ),
    memoryCache := (mem.file : ℚ),
    memoryRSS := (mem.anon : ℚ),
    memswUsed := (mem.swapUsage : ℚ),
    memswTotal :=
      if mem.swapLimit = maxUInt64 then
        if host.swapTotal > 0 then host.swapTotal
        else if host.memTotal > 0 then host.memTotal
        else (mem.swapLimit : ℚ)
      else (mem.swapLimit : ℚ) }

/-- The v2 memory block (frontend.go lines 1134-1167). -/
def applyMemoryV2 (host : HostMemInfo) (stats : V2StatsM) (m : CgMetricM) :
    CgMetricM :=
  match stats.memory with
  | none => m
  | some mem =>
    match mem.psiFullTotalUsec with
    | none => memUpdateV2 host mem m
    | some t => { memUpdateV2 host mem m with memoryPressure := (t : ℚ) / 1000000 }

/-- The v2 memory-events block (frontend.go lines 1168-1171). -/
def applyMemEventsV2 (stats : V2StatsM) (m : CgMetricM) : CgMetricM :=
  match stats.memoryEvents with
  | none => m
  | some ev => { m with memoryFailCount := (ev.oom : ℚ) }

/-- Reset of the four per-device block-IO maps (the `make` calls). -/
def blkioReset (m : CgMetricM) : CgMetricM :=
  { m with blkioReadBytes := [], blkioReadReqs := [],
           blkioWriteBytes := [], blkioWriteReqs := [] }

/-- Device-name resolution against the `blockDevices` map: a missing key
reads as the empty string, like the Go map. -/
def devName (bd : List (String × String)) (major minor : Nat) : String :=
  (lookupA bd (devKey major minor)).getD ""

/-- The v2 `io.stat` loop body (frontend.go lines 1180-1186). -/
def ioAccum (bd : List (String × String)) (acc : CgMetricM)
    (e : V2IoEntryM) : CgMetricM :=
  { acc with
    blkioReadBytes := upsertA acc.blkioReadBytes (devName bd e.major e.minor) (e.rbytes : ℚ),
    blkioReadReqs := upsertA acc.blkioReadReqs (devName bd e.major e.minor) (e.rios : ℚ),
    blkioWriteBytes := upsertA acc.blkioWriteBytes (devName bd e.major e.minor) (e.wbytes : ℚ),
    blkioWriteReqs := upsertA acc.blkioWriteReqs (devName bd e.major e.minor) (e.wios : ℚ) }

/-- The v2 block-IO block (frontend.go lines 1173-1191). -/
def applyIoV2 (bd : List (String × String)) (stats : V2StatsM)
    (m : CgMetricM) : CgMetricM :=
  match stats.io with
  | none => m
  | some io =>
    match io.psiFullTotalUsec with
    | none => io.usage.foldl (ioAccum bd) (blkioReset m)
    | some t =>
      { io.usage.foldl (ioAccum bd) (blkioReset m) with
        blkioPressure := (t : ℚ) / 1000000 }

/-- The `rdma.current` loop body shared by v1 and v2 (frontend.go lines
1078-1081 and 1198-1201): both per-device maps are populated, handles and
objects from their own counters. -/
def rdmaAccum (acc : CgMetricM) (e : RdmaEntryM) : CgMetricM :=
  { acc with
    rdmaHCAHandles := upsertA acc.rdmaHCAHandles e.device (e.hcaHandles : ℚ),
    rdmaHCAObjects := upsertA acc.rdmaHCAObjects e.device (e.hcaObjects : ℚ) }

/-- Reset of the two per-device RDMA maps. -/
def rdmaReset (m : CgMetricM) : CgMetricM :=
  { m with rdmaHCAHandles := [], rdmaHCAObjects := [] }

/-- The RDMA block (frontend.go lines 1073-1082 and 1193-1202). -/
def applyRdma (rdma : Option (List RdmaEntryM)) (m : CgMetricM) : CgMetricM :=
  match rdma with
  | none => m
  | some entries => entries.foldl rdmaAccum (rdmaReset m)

/-- `cgroupCollector.statsV2` (frontend.go lines 1086-1203): a failed load
or stat, or nil stats, sets `err` and returns; otherwise the blocks run in
source order (CPU, cpuset, memory, memory events, io, rdma). -/
def statsV2 (host : HostMemInfo) (bd : List (String × String))
    (env : CgroupEnvV2) (m0 : CgMetricM) : CgMetricM :=
  match env.load with
  | .ok stats =>
    applyRdma stats.rdma
      (applyIoV2 bd stats
        (applyMemEventsV2 stats
          (applyMemoryV2 host stats
            (applyCPUs env.cpuset
              (applyCPUv2 stats m0)))))
  | _ => { m0 with err := true }

/-- The v1 CPU block (frontend.go lines 993-1000): nanoseconds over 1e9. -/
def applyCPUv1 (stats : V1StatsM) (m : CgMetricM) : CgMetricM :=
  match stats.cpu with
  | none => m
  | some c =>
    { m with cpuUser := (c.user : ℚ) / 1000000000,
             cpuSystem := (c.kernel : ℚ) / 1000000000,
             cpuTotal := (c.total : ℚ) / 1000000000 }

/-- The RSS/cache assignments of the v1 memory block. -/
def memRSSCacheV1 (mem : V1MemoryM) (m : CgMetricM) : CgMetricM :=
  { m with memoryRSS := (mem.totalRSS : ℚ),
           memoryCache := (mem.totalCache : ℚ) }

/-- The v1 memory-usage sub-block (frontend.go lines 1011-1022), with the
`math.MaxUint64` sentinel substitution. -/
def memUsageV1 (host : HostMemInfo) (mem : V1MemoryM) (m : CgMetricM) :
    CgMetricM :=
  match mem.usage with
  | none => m
  | some u =>
    { m with
      memoryUsed := (u.usage : ℚ),
      memoryTotal :=
        if u.limit = maxUInt64 ∧ host.memTotal > 0 then host.memTotal
        else (u.limit : ℚ),
      memoryFailCount := (u.failcnt : ℚ) }

/-- The v1 swap sub-block (frontend.go lines 1024-1042), with the
`SwapTotal` / `MemTotal` / sentinel cascade. -/
def memSwapV1 (host : HostMemInfo) (mem : V1MemoryM) (m : CgMetricM) :
    CgMetricM :=
  match mem.swap with
  | none => m
  | some sw =>
    { m with
      memswUsed := (sw.usage : ℚ),
      memswTotal :=
        if sw.limit = maxUInt64 then
          if host.swapTotal > 0 then host.swapTotal
          else if host.memTotal > 0 then host.memTotal
          else (sw.limit : ℚ)
        else (sw.limit : ℚ),
      memswFailCount := (sw.failcnt : ℚ) }

/-- The v1 memory block (frontend.go lines 1006-1043). -/
def applyMemoryV1 (host : HostMemInfo) (stats : V1StatsM) (m : CgMetricM) :
    CgMetricM :=
  match stats.memory with
  | none => m
  | some mem => memSwapV1 host mem (memUsageV1 host mem (memRSSCacheV1 mem m))

/-- The `io_service_bytes_recursive` loop body (frontend.go lines
1052-1060): only `Read` and `Write` rows are retained. -/
def blkioBytesAccumV1 (bd : List (String × String)) (acc : CgMetricM)
    (e : V1BlkioEntryM) : CgMetricM :=
  if e.op = "Read" then
    { acc with blkioReadBytes := upsertA acc.blkioReadBytes (devName bd e.major e.minor) (e.value : ℚ) }
  else if e.op = "Write" then
    { acc with blkioWriteBytes := upsertA acc.blkioWriteBytes (devName bd e.major e.minor) (e.value : ℚ) }
  else acc

/-- The `io_serviced_recursive` loop body (frontend.go lines 1062-1070). -/
def blkioReqsAccumV1 (bd : List (String × String)) (acc : CgMetricM)
    (e : V1BlkioEntryM) : CgMetricM :=
  if e.op = "Read" then
    { acc with blkioReadReqs := upsertA acc.blkioReadReqs (devName bd e.major e.minor) (e.value : ℚ) }
  else if e.op = "Write" then
    { acc with blkioWriteReqs := upsertA acc.blkioWriteReqs (devName bd e.major e.minor) (e.value : ℚ) }
  else acc

/-- The v1 block-IO block (frontend.go lines 1045-1071). -/
def applyBlkioV1 (bd : List (String × String)) (stats : V1StatsM)
    (m : CgMetricM) : CgMetricM :=
  match stats.blkio with
  | none => m
  | some bl =>
    bl.ioServicedRecursive.foldl (blkioReqsAccumV1 bd)
      (bl.ioServiceBytesRecursive.foldl (blkioBytesAccumV1 bd) (blkioReset m))

/-- `cgroupCollector.statsV1` (frontend.go lines 961-1083): failure
handling as in v2, then CPU, cpuset, memory, blkio, rdma in source order.
PSI fields are never touched in v1. -/
def statsV1 (host : HostMemInfo) (bd : List (String × String))
    (env : CgroupEnvV1) (m0 : CgMetricM) : CgMetricM :=
  match env.load with
  | .ok stats =>
    applyRdma stats.rdma
      (applyBlkioV1 bd stats
        (applyMemoryV1 host stats
          (applyCPUs env.cpuset
            (applyCPUv1 stats m0))))
  | _ => { m0 with err := true }

/-! ## Cgroup collector: metric emission (`cgroupCollector.Update`) -/

/-- The metric families sent by `cgroupCollector.Update` (one per
`prometheus.Desc` the update loop writes to). -/
inductive Fam where
  | units
  | cpuUser
  | cpuSystem
  | cpus
  | cpuPSI
  | memoryRSS
  | memoryCache
  | memoryUsed
  | memoryTotal
  | memoryFailCount
  | memswUsed
  | memswTotal
  | memswFailCount
  | memoryPSI
  | blkioReadBytes
  | blkioWriteBytes
  | blkioReadReqs
  | blkioWriteReqs
  | rdmaHandles
  | rdmaObjects
  | collectError
deriving DecidableEq

/-- One emitted sample: family, value, and the label values
(`manager`, `hostname`, `uuid`, `device`; absent labels are `none`). -/
structure Sample where
  fam : Fam
  value : ℚ
  manager : String
  hostname : String
  uuid : Option String
  device : Option String
deriving DecidableEq

/-- The per-collector option flags (`cgroupOpts`). -/
structure CgroupOptsM where
  collectSwapMemStats : Bool
  collectBlockIOStats : Bool
  collectPSIStats : Bool
deriving DecidableEq

/-- The per-device samples for one device key of the read-bytes map
(frontend.go lines 809-825): the other three maps are consulted with
comma-ok, and a sample is emitted only when the value is present and
strictly positive. -/
def blkioDevSamples (mgr hn : String) (m : CgMetricM) (dv : String × ℚ) :
    List Sample :=
  (if dv.2 > 0 then
    [⟨.blkioReadBytes, dv.2, mgr, hn, some m.uuid, some dv.1⟩] else [])
  ++ (match lookupA m.blkioWriteBytes dv.1 with
      | some v =>
        if v > 0 then
          [⟨.blkioWriteBytes, v, mgr, hn, some m.uuid, some dv.1⟩] else []
      | none => [])
  ++ (match lookupA m.blkioReadReqs dv.1 with
      | some v =>
        if v > 0 then
          [⟨.blkioReadReqs, v, mgr, hn, some m.uuid, some dv.1⟩] else []
      | none => [])
  ++ (match lookupA m.blkioWriteReqs dv.1 with
      | some v =>
        if v > 0 then
          [⟨.blkioWriteReqs, v, mgr, hn, some m.uuid, some dv.1⟩] else []
      | none => [])

/-- The conditional per-device block-IO emission (frontend.go lines
807-826): iterate the read-bytes map, emitting the per-device block. -/
def blkioSamples (mgr hn : String) (m : CgMetricM) : List Sample :=
  m.blkioReadBytes.foldr (fun dv acc => blkioDevSamples mgr hn m dv ++ acc) []

/-- One iteration of the RDMA handles loop (frontend.go lines 835-839). -/
def rdmaHandleSample (mgr hn : String) (m : CgMetricM) (dv : String × ℚ) :
    List Sample :=
  if dv.2 > 0 then
    [⟨.rdmaHandles, dv.2, mgr, hn, some m.uuid, some dv.1⟩] else []

/-- The RDMA handles loop: positive per-device handle counts. -/
def rdmaHandleSamples (mgr hn : String) (m : CgMetricM) : List Sample :=
  m.rdmaHCAHandles.foldr (fun dv acc => rdmaHandleSample mgr hn m dv ++ acc) []

/-- One iteration of the RDMA objects loop exactly as written in the
source (frontend.go lines 841-845): the loop ranges over
`m.rdmaHCAHandles` again, so the emitted "objects" values are the handle
counts. -/
def rdmaObjectSample (mgr hn : String) (m : CgMetricM) (dv : String × ℚ) :
    List Sample :=
  if dv.2 > 0 then
    [⟨.rdmaObjects, dv.2, mgr, hn, some m.uuid, some dv.1⟩] else []

/-- The RDMA objects loop, iterating the handles map as the source does. -/
def rdmaObjectSamples (mgr hn : String) (m : CgMetricM) : List Sample :=
  m.rdmaHCAHandles.foldr (fun dv acc => rdmaObjectSample mgr hn m dv ++ acc) []

/-- The per-unit send sequence of `cgroupCollector.Update` (frontend.go
lines 783-846): the collect-error gauge only when `err` is set, CPU and
memory gauges unconditionally, swap, block-IO and PSI behind their option
flags, then the two RDMA loops. -/
def emitUnit (opts : CgroupOptsM) (mgr hn : String) (m : CgMetricM) :
    List Sample :=
  (if m.err then [⟨.collectError, 1, mgr, hn, some m.uuid, none⟩] else [])
  ++ [⟨.cpuUser, m.cpuUser, mgr, hn, some m.uuid, none⟩,
      ⟨.cpuSystem, m.cpuSystem, mgr, hn, some m.uuid, none⟩,
      ⟨.cpus, (m.cpus : ℚ), mgr, hn, some m.uuid, none⟩]
  ++ [⟨.memoryRSS, m.memoryRSS, mgr, hn, some m.uuid, none⟩,
      ⟨.memoryCache, m.memoryCache, mgr, hn, some m.uuid, none⟩,
      ⟨.memoryUsed, m.memoryUsed, mgr, hn, some m.uuid, none⟩,
      ⟨.memoryTotal, m.memoryTotal, mgr, hn, some m.uuid, none⟩,
      ⟨.memoryFailCount, m.memoryFailCount, mgr, hn, some m.uuid, none⟩]
  ++ (if opts.collectSwapMemStats then
       [⟨.memswUsed, m.memswUsed, mgr, hn, some m.uuid, none⟩,
        ⟨.memswTotal, m.memswTotal, mgr, hn, some m.uuid, none⟩,
        ⟨.memswFailCount, m.memswFailCount, mgr, hn, some m.uuid, none⟩]
      else [])
  ++ (if opts.collectBlockIOStats then blkioSamples mgr hn m else [])
  ++ (if opts.collectPSIStats then
       [⟨.cpuPSI, m.cpuPressure, mgr, hn, some m.uuid, none⟩,
        ⟨.memoryPSI, m.memoryPressure, mgr, hn, some m.uuid, none⟩]
      else [])
  ++ rdmaHandleSamples mgr hn m
  ++ rdmaObjectSamples mgr hn m

/-- `cgroupCollector.Update` after the per-unit stats reads: the number of
units first, then every unit in turn (the goroutine fan-out of `doUpdate`
touches disjoint slice elements, so it is the per-element map made
explicit by the callers below). -/
def Update (opts : CgroupOptsM) (mgr hn : String) (ms : List CgMetricM) :
    List Sample :=
  ⟨.units, (ms.length : ℚ), mgr, hn, none, none⟩ ::
    ms.foldr (fun m acc => emitUnit opts mgr hn m ++ acc) []

/-- `Update` over freshly read v2 units: `doUpdate` applies `statsV2` to
each pre-allocated metric, then the samples are sent. -/
def UpdateV2 (opts : CgroupOptsM) (mgr hn : String) (host : HostMemInfo)
    (bd : List (String × String)) (units : List (CgroupEnvV2 × CgMetricM)) :
    List Sample :=
  Update opts mgr hn (units.map (fun u => statsV2 host bd u.1 u.2))

/-! ## Cgroup discovery (`cgroupManager.discover`) -/

/-- One callback invocation of the `filepath.WalkDir` traversal: the path,
whether the entry is a directory, and whether the walk passed an error for
this entry (a vanished directory surfaces here). -/
structure WalkEntry where
  path : String
  isDir : Bool
  err : Bool
deriving DecidableEq

/-- The `cgroupPath` pair: absolute (sanitized) path and path relative to
the cgroup root. -/
structure CgroupPathM where
  abs : String
  rel : String
deriving DecidableEq

/-- The `cgroup` record produced by discovery. -/
structure CgroupM where
  id : String
  uuid : String
  path : CgroupPathM
  procs : List Nat
  children : List CgroupPathM
deriving DecidableEq

/-- The resource-manager policy and host interfaces `discover` consults:
`relOf` is `filepath.Rel` against the configured root (`none` on error),
`unescape` is `unescapeString` (`none` on error), `idOf` is capture group 1
of `idRegex.FindStringSubmatch` on the sanitized path (`none` when the
regex does not match), `isChild` the per-manager child test on the raw
path, and `procsOf` the live processes resolved from `cgroup.procs` (read
failures, unparsable lines and exited PIDs are silently dropped, leaving
exactly this list). -/
structure ManagerModel where
  relOf : String → Option String
  unescape : String → Option String
  idOf : String → Option String
  isChild : String → Bool
  procsOf : String → List Nat

/-- Association-list append for the `cgroupProcs` / `cgroupChildren`
accumulation maps (`map[k] = append(map[k], xs...)`). -/
def appendA {α : Type} (m : List (String × List α)) (k : String)
    (xs : List α) : List (String × List α) :=
  match lookupA m k with
  | some old => upsertA m k (old ++ xs)
  | none => m ++ [(k, xs)]

/-- Walk state: the root cgroups in discovery order plus the two
accumulation maps. -/
structure DiscState where
  cgroups : List CgroupM
  procsMap : List (String × List Nat)
  childrenMap : List (String × List CgroupPathM)

/-- The per-entry state update of the `WalkDir` callback of
`cgroupManager.discover` (frontend.go lines 335-400): non-directories,
relative-path failures, unescape failures, regex misses and empty trimmed
IDs contribute nothing; any other directory records its live procs under
its ID; child paths are recorded under `children` only; other directories
additionally become root cgroups with `uuid = id`. -/
def stepEntry (M : ManagerModel) (e : WalkEntry) (st : DiscState) : DiscState :=
  if !e.isDir then st
  else
    match M.relOf e.path with
    | none => st
    | some rel =>
      match M.unescape e.path with
      | none => st
      | some sp =>
        match M.idOf sp with
        | none => st
        | some cap =>
          if goTrim cap = "" then st
          else
            let id := goTrim cap
            let st1 := { st with
              procsMap := appendA st.procsMap id (M.procsOf e.path) }
            if M.isChild e.path then
              { st1 with childrenMap := appendA st1.childrenMap id [⟨sp, rel⟩] }
            else
              { st1 with
                cgroups := st1.cgroups ++ [⟨id, id, ⟨sp, rel⟩, [], []⟩],
                childrenMap := appendA st1.childrenMap id [⟨sp, rel⟩] }

/-- The `WalkDir` traversal of `cgroupManager.discover` (frontend.go lines
330-405), folded over the walk entries: a callback error (`err != nil`,
line 331-333) aborts the walk with that error, otherwise the callback
updates the accumulation state entry by entry. -/
def discGo (M : ManagerModel) : List WalkEntry → DiscState →
    Except String DiscState
  | [], st => .ok st
  | e :: rest, st =>
    if e.err then .error e.path else discGo M rest (stepEntry M e st)

/-- The post-walk merge (frontend.go lines 407-416): each root receives
the procs and children accumulated under its ID, keeping its own fields
when the maps have no entry. -/
def mergeState (st : DiscState) : List CgroupM :=
  st.cgroups.map (fun c =>
    { c with procs := (lookupA st.procsMap c.id).getD c.procs,
             children := (lookupA st.childrenMap c.id).getD c.children })

/-- `cgroupManager.discover`: walk then merge; a walk error aborts the
whole pass. -/
def discover (M : ManagerModel) (evts : List WalkEntry) :
    Except String (List CgroupM) :=
  (discGo M evts ⟨[], [], []⟩).map mergeState

/-- Boolean success test of an `Except`. -/
def isOkE {ε α : Type} : Except ε α → Bool
  | .ok _ => true
  | .error _ => false

/-- The root cgroup record a single walk entry would contribute, if any:
a directory with successful relative path and unescaping whose sanitized
path matches the ID regex with a nonempty trimmed capture, and which is
not a child path. -/
def entryRoot (M : ManagerModel) (e : WalkEntry) : Option CgroupM :=
  if e.isDir then
    match M.relOf e.path with
    | none => none
    | some rel =>
      match M.unescape e.path with
      | none => none
      | some sp =>
        match M.idOf sp with
        | none => none
        | some cap =>
          if goTrim cap = "" then none
          else if M.isChild e.path then none
          else some ⟨goTrim cap, goTrim cap, ⟨sp, rel⟩, [], []⟩
  else none

/-- The IDs of the root (non-child) units a walk would produce, in walk
order. -/
def rootIds (M : ManagerModel) (evts : List WalkEntry) : List String :=
  evts.filterMap (fun e => (entryRoot M e).map (fun c => c.id))

/-- Leading decimal digits of a component. -/
def leadingDigitsL (cs : List Char) : List Char := cs.takeWhile Char.isDigit

/-- Capture of `job_<digits>` at the start of one path component. -/
def jobComp (cs : List Char) : Option (List Char) :=
  if startsWithL ['j', 'o', 'b', '_'] cs then
    let ds := leadingDigitsL (cs.drop 4)
    if ds = [] then none else some ds
  else none

/-- Scan the path components for the first `job_<digits>` component that
follows a component containing `slurm`. -/
def capAfterSlurm : Bool → List (List Char) → Option (List Char)
  | _, [] => none
  | seen, comp :: rest =>
    if seen then
      match jobComp comp with
      | some ds => some ds
      | none => capAfterSlurm (seen || containsL
          ['s', 'l', 'u', 'r', 'm'] comp) rest
    else capAfterSlurm (containsL
        ['s', 'l', 'u', 'r', 'm'] comp) rest

/-- Capture group 1 of the slurm cgroup path regex
`^.*[/]slurm(?:.*?)[/]job_([0-9]+)(?:.*$)` (frontend.go line 200), modelled
for paths in which `slurm...` and `job_<digits>...` occur as distinct
slash-separated components — which covers every slurm layout of the
specification and all concrete paths used below. -/
def captureJobId (p : String) : Option String :=
  (capAfterSlurm false (splitOnCharL '/' p.toList)).map
    (fun ds => String.mk ds)

/-- The slurm manager policy instantiated concretely: identity relative
paths and unescaping (the test paths carry no unicode escapes), the slurm
regex capture, and the `strings.Contains(p, "/step_")` child test
(frontend.go lines 466-474); `cgroup.procs` reads resolve no live
processes. -/
def slurmM : ManagerModel :=
  { relOf := fun p => some p,
    unescape := fun p => some p,
    idOf := captureJobId,
    isChild := fun p => containsSub p "/step_",
    procsOf := fun _ => [] }

/-- Equality on `Except` results is decidable. -/
instance {ε α : Type} [DecidableEq ε] [DecidableEq α] :
    DecidableEq (Except ε α) := fun a b =>
  match a, b with
  | .ok x, .ok y =>
    if h : x = y then isTrue (by rw [h]) else isFalse (by
      intro hc
      cases hc
      exact h rfl)
  | .error x, .error y =>
    if h : x = y then isTrue (by rw [h]) else isFalse (by
      intro hc
      cases hc
      exact h rfl)
  | .ok _, .error _ => isFalse (by intro hc; cases hc)
  | .error _, .ok _ => isFalse (by intro hc; cases hc)

/-! ## Field-projection lemmas for the stats pipeline -/

lemma foldl_proj {α β γ : Type} (f : α → β → α) (proj : α → γ)
    (h : ∀ a b, proj (f a b) = proj a) :
    ∀ (l : List β) (a : α), proj (l.foldl f a) = proj a := by
  intro l
  induction l with
  | nil => intro a; rfl
  | cons b rest ih =>
    intro a
    rw [List.foldl_cons, ih, h]

lemma applyRdma_pres (rdma : Option (List RdmaEntryM)) (m : CgMetricM) :
    (applyRdma rdma m).memoryTotal = m.memoryTotal ∧
    (applyRdma rdma m).memswTotal = m.memswTotal ∧
    (applyRdma rdma m).cpus = m.cpus := by
  unfold applyRdma
  cases rdma with
  | none => exact ⟨rfl, rfl, rfl⟩
  | some entries =>
    exact ⟨foldl_proj rdmaAccum (fun x => x.memoryTotal) (fun a b => rfl)
        entries (rdmaReset m),
      foldl_proj rdmaAccum (fun x => x.memswTotal) (fun a b => rfl)
        entries (rdmaReset m),
      foldl_proj rdmaAccum (fun x => x.cpus) (fun a b => rfl)
        entries (rdmaReset m)⟩

lemma applyIoV2_pres (bd : List (String × String)) (stats : V2StatsM)
    (m : CgMetricM) :
    (applyIoV2 bd stats m).memoryTotal = m.memoryTotal ∧
    (applyIoV2 bd stats m).memswTotal = m.memswTotal ∧
    (applyIoV2 bd stats m).cpus = m.cpus := by
  rcases hio : stats.io with _ | io
  · simp [applyIoV2, hio]
  · rcases hpsi : io.psiFullTotalUsec with _ | t <;>
      simp only [applyIoV2, hio, hpsi] <;>
      exact ⟨foldl_proj (ioAccum bd) (fun x => x.memoryTotal) (fun a b => rfl)
          io.usage (blkioReset m),
        foldl_proj (ioAccum bd) (fun x => x.memswTotal) (fun a b => rfl)
          io.usage (blkioReset m),
        foldl_proj (ioAccum bd) (fun x => x.cpus) (fun a b => rfl)
          io.usage (blkioReset m)⟩

lemma applyMemEventsV2_pres (stats : V2StatsM) (m : CgMetricM) :
    (applyMemEventsV2 stats m).memoryTotal = m.memoryTotal ∧
    (applyMemEventsV2 stats m).memswTotal = m.memswTotal ∧
    (applyMemEventsV2 stats m).cpus = m.cpus := by
  rcases hme : stats.memoryEvents with _ | ev <;> simp [applyMemEventsV2, hme]

lemma applyMemoryV2_cpus (host : HostMemInfo) (stats : V2StatsM)
    (m : CgMetricM) : (applyMemoryV2 host stats m).cpus = m.cpus := by
  rcases hm : stats.memory with _ | mem
  · simp [applyMemoryV2, hm]
  · rcases hpsi : mem.psiFullTotalUsec with _ | t <;>
      simp [applyMemoryV2, hm, hpsi, memUpdateV2]

lemma applyMemoryV2_memoryTotal (host : HostMemInfo) (stats : V2StatsM)
    (mem : V2MemoryM) (m : CgMetricM) (hm : stats.memory = some mem) :
    (applyMemoryV2 host stats m).memoryTotal =
      (if mem.usageLimit = maxUInt64 ∧ host.memTotal > 0 then host.memTotal
       else (mem.usageLimit : ℚ)) := by
  rcases hpsi : mem.psiFullTotalUsec with _ | t <;>
    simp [applyMemoryV2, hm, hpsi, memUpdateV2]

lemma applyMemoryV2_memswTotal (host : HostMemInfo) (stats : V2StatsM)
    (mem : V2MemoryM) (m : CgMetricM) (hm : stats.memory = some mem) :
    (applyMemoryV2 host stats m).memswTotal =
      (if mem.swapLimit = maxUInt64 then
        if host.swapTotal > 0 then host.swapTotal
        else if host.memTotal > 0 then host.memTotal
        else (mem.swapLimit : ℚ)
      else (mem.swapLimit : ℚ)) := by
  rcases hpsi : mem.psiFullTotalUsec with _ | t <;>
    simp [applyMemoryV2, hm, hpsi, memUpdateV2]

lemma statsV2_memoryTotal (host : HostMemInfo) (bd : List (String × String))
    (env : CgroupEnvV2) (m0 : CgMetricM) (stats : V2StatsM) (mem : V2MemoryM)
    (hl : env.load = .ok stats) (hm : stats.memory = some mem) :
    (statsV2 host bd env m0).memoryTotal =
      (if mem.usageLimit = maxUInt64 ∧ host.memTotal > 0 then host.memTotal
       else (mem.usageLimit : ℚ)) := by
  simp only [statsV2, hl]
  rw [(applyRdma_pres stats.rdma _).1, (applyIoV2_pres bd stats _).1,
    (applyMemEventsV2_pres stats _).1]
  exact applyMemoryV2_memoryTotal host stats mem _ hm

lemma statsV2_memswTotal (host : HostMemInfo) (bd : List (String × String))
    (env : CgroupEnvV2) (m0 : CgMetricM) (stats : V2StatsM) (mem : V2MemoryM)
    (hl : env.load = .ok stats) (hm : stats.memory = some mem) :
    (statsV2 host bd env m0).memswTotal =
      (if mem.swapLimit = maxUInt64 then
        if host.swapTotal > 0 then host.swapTotal
        else if host.memTotal > 0 then host.memTotal
        else (mem.swapLimit : ℚ)
      else (mem.swapLimit : ℚ)) := by
  simp only [statsV2, hl]
  rw [(applyRdma_pres stats.rdma _).2.1, (applyIoV2_pres bd stats _).2.1,
    (applyMemEventsV2_pres stats _).2.1]
  exact applyMemoryV2_memswTotal host stats mem _ hm

lemma applyCPUs_cpus_of_parse (content : String) (l : List String)
    (m : CgMetricM) (hp : parseCPUSet (stringDropNl content) = some l) :
    (applyCPUs (some content) m).cpus = l.length := by
  simp [applyCPUs, hp]

lemma statsV2_cpus (host : HostMemInfo) (bd : List (String × String))
    (env : CgroupEnvV2) (m0 : CgMetricM) (stats : V2StatsM) (content : String)
    (l : List String) (hl : env.load = .ok stats)
    (hc : env.cpuset = some content)
    (hp : parseCPUSet (stringDropNl content) = some l) :
    (statsV2 host bd env m0).cpus = l.length := by
  simp only [statsV2, hl]
  rw [(applyRdma_pres stats.rdma _).2.2, (applyIoV2_pres bd stats _).2.2,
    (applyMemEventsV2_pres stats _).2.2, applyMemoryV2_cpus, hc]
  exact applyCPUs_cpus_of_parse content l _ hp

lemma applyBlkioV1_pres (bd : List (String × String)) (stats : V1StatsM)
    (m : CgMetricM) :
    (applyBlkioV1 bd stats m).memoryTotal = m.memoryTotal ∧
    (applyBlkioV1 bd stats m).memswTotal = m.memswTotal := by
  have hb : ∀ (a : CgMetricM) (e : V1BlkioEntryM),
      (blkioBytesAccumV1 bd a e).memoryTotal = a.memoryTotal ∧
      (blkioBytesAccumV1 bd a e).memswTotal = a.memswTotal := by
    intro a e
    unfold blkioBytesAccumV1
    by_cases h1 : e.op = "Read"
    · rw [if_pos h1]; exact ⟨rfl, rfl⟩
    · rw [if_neg h1]
      by_cases h2 : e.op = "Write"
      · rw [if_pos h2]; exact ⟨rfl, rfl⟩
      · rw [if_neg h2]; exact ⟨rfl, rfl⟩
  have hr : ∀ (a : CgMetricM) (e : V1BlkioEntryM),
      (blkioReqsAccumV1 bd a e).memoryTotal = a.memoryTotal ∧
      (blkioReqsAccumV1 bd a e).memswTotal = a.memswTotal := by
    intro a e
    unfold blkioReqsAccumV1
    by_cases h1 : e.op = "Read"
    · rw [if_pos h1]; exact ⟨rfl, rfl⟩
    · rw [if_neg h1]
      by_cases h2 : e.op = "Write"
      · rw [if_pos h2]; exact ⟨rfl, rfl⟩
      · rw [if_neg h2]; exact ⟨rfl, rfl⟩
  rcases hbl : stats.blkio with _ | bl
  · simp [applyBlkioV1, hbl]
  · simp only [applyBlkioV1, hbl]
    constructor
    · rw [foldl_proj (blkioReqsAccumV1 bd) (fun x => x.memoryTotal)
        (fun a e => (hr a e).1) bl.ioServicedRecursive _]
      exact foldl_proj (blkioBytesAccumV1 bd) (fun x => x.memoryTotal)
        (fun a e => (hb a e).1) bl.ioServiceBytesRecursive (blkioReset m)
    · rw [foldl_proj (blkioReqsAccumV1 bd) (fun x => x.memswTotal)
        (fun a e => (hr a e).2) bl.ioServicedRecursive _]
      exact foldl_proj (blkioBytesAccumV1 bd) (fun x => x.memswTotal)
        (fun a e => (hb a e).2) bl.ioServiceBytesRecursive (blkioReset m)

lemma applyMemoryV1_memoryTotal (host : HostMemInfo) (stats : V1StatsM)
    (mem : V1MemoryM) (u : V1MemEntryM) (m : CgMetricM)
    (hm : stats.memory = some mem) (hu : mem.usage = some u) :
    (applyMemoryV1 host stats m).memoryTotal =
      (if u.limit = maxUInt64 ∧ host.memTotal > 0 then host.memTotal
       else (u.limit : ℚ)) := by
  have hswap : ∀ mm : CgMetricM,
      (memSwapV1 host mem mm).memoryTotal = mm.memoryTotal := by
    intro mm
    rcases hss : mem.swap with _ | sw <;> simp [memSwapV1, hss]
  simp only [applyMemoryV1, hm]
  rw [hswap]
  simp [memUsageV1, hu]

lemma applyMemoryV1_memswTotal (host : HostMemInfo) (stats : V1StatsM)
    (mem : V1MemoryM) (sw : V1MemEntryM) (m : CgMetricM)
    (hm : stats.memory = some mem) (hsw : mem.swap = some sw) :
    (applyMemoryV1 host stats m).memswTotal =
      (if sw.limit = maxUInt64 then
        if host.swapTotal > 0 then host.swapTotal
        else if host.memTotal > 0 then host.memTotal
        else (sw.limit : ℚ)
      else (sw.limit : ℚ)) := by
  simp only [applyMemoryV1, hm]
  simp [memSwapV1, hsw]

lemma statsV1_memoryTotal (host : HostMemInfo) (bd : List (String × String))
    (env : CgroupEnvV1) (m0 : CgMetricM) (stats : V1StatsM) (mem : V1MemoryM)
    (u : V1MemEntryM) (hl : env.load = .ok stats)
    (hm : stats.memory = some mem) (hu : mem.usage = some u) :
    (statsV1 host bd env m0).memoryTotal =
      (if u.limit = maxUInt64 ∧ host.memTotal > 0 then host.memTotal
       else (u.limit : ℚ)) := by
  simp only [statsV1, hl]
  rw [(applyRdma_pres stats.rdma _).1, (applyBlkioV1_pres bd stats _).1]
  exact applyMemoryV1_memoryTotal host stats mem u _ hm hu

lemma statsV1_memswTotal (host : HostMemInfo) (bd : List (String × String))
    (env : CgroupEnvV1) (m0 : CgMetricM) (stats : V1StatsM) (mem : V1MemoryM)
    (sw : V1MemEntryM) (hl : env.load = .ok stats)
    (hm : stats.memory = some mem) (hsw : mem.swap = some sw) :
    (statsV1 host bd env m0).memswTotal =
      (if sw.limit = maxUInt64 then
        if host.swapTotal > 0 then host.swapTotal
        else if host.memTotal > 0 then host.memTotal
        else (sw.limit : ℚ)
      else (sw.limit : ℚ)) := by
  simp only [statsV1, hl]
  rw [(applyRdma_pres stats.rdma _).2.1, (applyBlkioV1_pres bd stats _).2]
  exact applyMemoryV1_memswTotal host stats mem sw _ hm hsw

/-- The v2 stats message of the C4 inputs: memory present with both limits
at the kernel sentinel, everything else absent. -/
def c4mem : V2MemoryM := ⟨1024, maxUInt64, 0, 0, 0, maxUInt64, none⟩

/-- Stats wrapper for `c4mem`. -/
def c4stats : V2StatsM := ⟨none, some c4mem, none, none, none⟩

/-- A successful v2 load of `c4stats`, no cpuset file. -/
def c4env : CgroupEnvV2 := ⟨.ok c4stats, none⟩

/-- C4 counterexample: on a host whose meminfo read failed (the
`hostMemInfo` map is empty, so `MemTotal_bytes` reads as 0), a memory
limit equal to the all-ones sentinel is passed through as the raw
sentinel, not replaced by the host MemTotal as the claim states. -/
theorem c4_counterexample :
    c4mem.usageLimit = maxUInt64 ∧
    (statsV2 ⟨0, 0⟩ [] c4env (CgMetricM.init "/p" "u")).memoryTotal =
      ((maxUInt64 : Nat) : ℚ) ∧
    (statsV2 ⟨0, 0⟩ [] c4env (CgMetricM.init "/p" "u")).memoryTotal ≠
      (⟨0, 0⟩ : HostMemInfo).memTotal := by decide

/-- C4 (amended): in both cgroup modes, a memory limit equal to the
all-ones sentinel is replaced by the host MemTotal only when that value is
positive, and is otherwise emitted as the raw sentinel; a swap limit equal
to the sentinel follows the SwapTotal, then MemTotal, then raw-sentinel
cascade gated on positivity; limits different from the sentinel pass
through unchanged. -/
theorem c4_max_sentinel_substitution :
    (∀ (host : HostMemInfo) (bd : List (String × String)) (env : CgroupEnvV2)
        (m0 : CgMetricM) (stats : V2StatsM) (mem : V2MemoryM),
      env.load = .ok stats → stats.memory = some mem →
      ((mem.usageLimit = maxUInt64 → host.memTotal > 0 →
          (statsV2 host bd env m0).memoryTotal = host.memTotal) ∧
       (mem.usageLimit = maxUInt64 → ¬ host.memTotal > 0 →
          (statsV2 host bd env m0).memoryTotal = ((maxUInt64 : Nat) : ℚ)) ∧
       (mem.usageLimit ≠ maxUInt64 →
          (statsV2 host bd env m0).memoryTotal = (mem.usageLimit : ℚ)) ∧
       (mem.swapLimit = maxUInt64 → host.swapTotal > 0 →
          (statsV2 host bd env m0).memswTotal = host.swapTotal) ∧
       (mem.swapLimit = maxUInt64 → ¬ host.swapTotal > 0 → host.memTotal > 0 →
          (statsV2 host bd env m0).memswTotal = host.memTotal) ∧
       (mem.swapLimit = maxUInt64 → ¬ host.swapTotal > 0 → ¬ host.memTotal > 0 →
          (statsV2 host bd env m0).memswTotal = ((maxUInt64 : Nat) : ℚ)) ∧
       (mem.swapLimit ≠ maxUInt64 →
          (statsV2 host bd env m0).memswTotal = (mem.swapLimit : ℚ)))) ∧
    (∀ (host : HostMemInfo) (bd : List (String × String)) (env : CgroupEnvV1)
        (m0 : CgMetricM) (stats : V1StatsM) (mem : V1MemoryM),
      env.load = .ok stats → stats.memory = some mem →
      ((∀ u : V1MemEntryM, mem.usage = some u →
        ((u.limit = maxUInt64 → host.memTotal > 0 →
            (statsV1 host bd env m0).memoryTotal = host.memTotal) ∧
         (u.limit = maxUInt64 → ¬ host.memTotal > 0 →
            (statsV1 host bd env m0).memoryTotal = ((maxUInt64 : Nat) : ℚ)) ∧
         (u.limit ≠ maxUInt64 →
            (statsV1 host bd env m0).memoryTotal = (u.limit : ℚ)))) ∧
       (∀ sw : V1MemEntryM, mem.swap = some sw →
        ((sw.limit = maxUInt64 → host.swapTotal > 0 →
            (statsV1 host bd env m0).memswTotal = host.swapTotal) ∧
         (sw.limit = maxUInt64 → ¬ host.swapTotal > 0 → host.memTotal > 0 →
            (statsV1 host bd env m0).memswTotal = host.memTotal) ∧
         (sw.limit = maxUInt64 → ¬ host.swapTotal > 0 → ¬ host.memTotal > 0 →
            (statsV1 host bd env m0).memswTotal = ((maxUInt64 : Nat) : ℚ)) ∧
         (sw.limit ≠ maxUInt64 →
            (statsV1 host bd env m0).memswTotal = (sw.limit : ℚ)))))) := by
  constructor
  · intro host bd env m0 stats mem hl hm
    refine ⟨?_, ?_, ?_, ?_, ?_, ?_, ?_⟩
    · intro h1 h2
      rw [statsV2_memoryTotal host bd env m0 stats mem hl hm, if_pos ⟨h1, h2⟩]
    · intro h1 h2
      rw [statsV2_memoryTotal host bd env m0 stats mem hl hm,
        if_neg (fun hand => h2 hand.2), h1]
    · intro h1
      rw [statsV2_memoryTotal host bd env m0 stats mem hl hm,
        if_neg (fun hand => h1 hand.1)]
    · intro h1 h2
      rw [statsV2_memswTotal host bd env m0 stats mem hl hm, if_pos h1,
        if_pos h2]
    · intro h1 h2 h3
      rw [statsV2_memswTotal host bd env m0 stats mem hl hm, if_pos h1,
        if_neg h2, if_pos h3]
    · intro h1 h2 h3
      rw [statsV2_memswTotal host bd env m0 stats mem hl hm, if_pos h1,
        if_neg h2, if_neg h3, h1]
    · intro h1
      rw [statsV2_memswTotal host bd env m0 stats mem hl hm, if_neg h1]
  · intro host bd env m0 stats mem hl hm
    constructor
    · intro u hu
      refine ⟨?_, ?_, ?_⟩
      · intro h1 h2
        rw [statsV1_memoryTotal host bd env m0 stats mem u hl hm hu,
          if_pos ⟨h1, h2⟩]
      · intro h1 h2
        rw [statsV1_memoryTotal host bd env m0 stats mem u hl hm hu,
          if_neg (fun hand => h2 hand.2), h1]
      · intro h1
        rw [statsV1_memoryTotal host bd env m0 stats mem u hl hm hu,
          if_neg (fun hand => h1 hand.1)]
    · intro sw hsw
      refine ⟨?_, ?_, ?_, ?_⟩
      · intro h1 h2
        rw [statsV1_memswTotal host bd env m0 stats mem sw hl hm hsw,
          if_pos h1, if_pos h2]
      · intro h1 h2 h3
        rw [statsV1_memswTotal host bd env m0 stats mem sw hl hm hsw,
          if_pos h1, if_neg h2, if_pos h3]
      · intro h1 h2 h3
        rw [statsV1_memswTotal host bd env m0 stats mem sw hl hm hsw,
          if_pos h1, if_neg h2, if_neg h3, h1]
      · intro h1
        rw [statsV1_memswTotal host bd env m0 stats mem sw hl hm hsw,
          if_neg h1]

/-- Host memory info for the C4 witness: positive MemTotal and SwapTotal. -/
def c4whost : HostMemInfo := ⟨4096, 2048⟩

/-- C4 witness: the amended theorem applied to a concrete v2 unit whose
memory and swap limits both carry the sentinel, on a host with positive
MemTotal and SwapTotal. -/
theorem c4_witness :
    c4env.load = .ok c4stats ∧ c4stats.memory = some c4mem ∧
    c4mem.usageLimit = maxUInt64 ∧ c4whost.memTotal > 0 ∧
    (statsV2 c4whost [] c4env (CgMetricM.init "/p" "u")).memoryTotal =
      c4whost.memTotal ∧
    (statsV2 c4whost [] c4env (CgMetricM.init "/p" "u")).memswTotal =
      c4whost.swapTotal :=
  ⟨rfl, rfl, by decide, by decide,
    (c4_max_sentinel_substitution.1 c4whost [] c4env (CgMetricM.init "/p" "u")
      c4stats c4mem rfl rfl).1 (by decide) (by decide),
    (c4_max_sentinel_substitution.1 c4whost [] c4env (CgMetricM.init "/p" "u")
      c4stats c4mem rfl rfl).2.2.2.1 (by decide) (by decide)⟩

/-! ## Sample-level lemmas for the emission loops -/

lemma mem_foldr_append {α β : Type} (f : β → List α) (l : List β) (s : α) :
    s ∈ l.foldr (fun b acc => f b ++ acc) [] ↔ ∃ b ∈ l, s ∈ f b := by
  induction l with
  | nil => simp
  | cons b rest ih =>
    rw [List.foldr_cons, List.mem_append, ih]
    constructor
    · rintro (h | ⟨x, hx, hsx⟩)
      · exact ⟨b, List.mem_cons_self b rest, h⟩
      · exact ⟨x, List.mem_cons_of_mem b hx, hsx⟩
    · rintro ⟨x, hx, hsx⟩
      rcases List.mem_cons.mp hx with h | h
      · subst h; exact Or.inl hsx
      · exact Or.inr ⟨x, h, hsx⟩

lemma blkioDevSamples_spec (mgr hn : String) (m : CgMetricM) (dv : String × ℚ)
    (s : Sample) (hs : s ∈ blkioDevSamples mgr hn m dv) :
    (s.fam = .blkioReadBytes ∨ s.fam = .blkioWriteBytes ∨
     s.fam = .blkioReadReqs ∨ s.fam = .blkioWriteReqs) ∧ 0 < s.value := by
  unfold blkioDevSamples at hs
  rcases List.mem_append.mp hs with hs | hs
  rotate_left
  · rcases hlk : lookupA m.blkioWriteReqs dv.1 with _ | v
    · simp [hlk] at hs
    · simp only [hlk] at hs
      by_cases hv : v > 0
      · rw [if_pos hv, List.mem_singleton] at hs
        subst hs
        exact ⟨Or.inr (Or.inr (Or.inr rfl)), hv⟩
      · rw [if_neg hv] at hs
        cases hs
  rcases List.mem_append.mp hs with hs | hs
  rotate_left
  · rcases hlk : lookupA m.blkioReadReqs dv.1 with _ | v
    · simp [hlk] at hs
    · simp only [hlk] at hs
      by_cases hv : v > 0
      · rw [if_pos hv, List.mem_singleton] at hs
        subst hs
        exact ⟨Or.inr (Or.inr (Or.inl rfl)), hv⟩
      · rw [if_neg hv] at hs
        cases hs
  rcases List.mem_append.mp hs with hs | hs
  · by_cases hv : dv.2 > 0
    · rw [if_pos hv, List.mem_singleton] at hs
      subst hs
      exact ⟨Or.inl rfl, hv⟩
    · rw [if_neg hv] at hs
      cases hs
  · rcases hlk : lookupA m.blkioWriteBytes dv.1 with _ | v
    · simp [hlk] at hs
    · simp only [hlk] at hs
      by_cases hv : v > 0
      · rw [if_pos hv, List.mem_singleton] at hs
        subst hs
        exact ⟨Or.inr (Or.inl rfl), hv⟩
      · rw [if_neg hv] at hs
        cases hs

lemma blkioSamples_spec (mgr hn : String) (m : CgMetricM) (s : Sample)
    (hs : s ∈ blkioSamples mgr hn m) :
    (s.fam = .blkioReadBytes ∨ s.fam = .blkioWriteBytes ∨
     s.fam = .blkioReadReqs ∨ s.fam = .blkioWriteReqs) ∧ 0 < s.value := by
  obtain ⟨dv, _, hsf⟩ :=
    (mem_foldr_append (blkioDevSamples mgr hn m) m.blkioReadBytes s).mp hs
  exact blkioDevSamples_spec mgr hn m dv s hsf

lemma rdmaHandleSamples_spec (mgr hn : String) (m : CgMetricM) (s : Sample)
    (hs : s ∈ rdmaHandleSamples mgr hn m) :
    s.fam = .rdmaHandles ∧ 0 < s.value := by
  obtain ⟨dv, _, hsf⟩ :=
    (mem_foldr_append (rdmaHandleSample mgr hn m) m.rdmaHCAHandles s).mp hs
  unfold rdmaHandleSample at hsf
  by_cases hv : dv.2 > 0
  · rw [if_pos hv, List.mem_singleton] at hsf
    subst hsf
    exact ⟨rfl, hv⟩
  · rw [if_neg hv] at hsf
    cases hsf

lemma rdmaObjectSamples_spec (mgr hn : String) (m : CgMetricM) (s : Sample)
    (hs : s ∈ rdmaObjectSamples mgr hn m) :
    s.fam = .rdmaObjects ∧ 0 < s.value := by
  obtain ⟨dv, _, hsf⟩ :=
    (mem_foldr_append (rdmaObjectSample mgr hn m) m.rdmaHCAHandles s).mp hs
  unfold rdmaObjectSample at hsf
  by_cases hv : dv.2 > 0
  · rw [if_pos hv, List.mem_singleton] at hsf
    subst hsf
    exact ⟨rfl, hv⟩
  · rw [if_neg hv] at hsf
    cases hsf

lemma filter_ce_blkio (mgr hn : String) (m : CgMetricM) :
    (blkioSamples mgr hn m).filter
      (fun s => decide (s.fam = .collectError)) = [] := by
  rw [List.filter_eq_nil_iff]
  intro s hs
  obtain ⟨hf, _⟩ := blkioSamples_spec mgr hn m s hs
  rcases hf with h | h | h | h <;> simp [h]

lemma filter_ce_rdmaHandles (mgr hn : String) (m : CgMetricM) :
    (rdmaHandleSamples mgr hn m).filter
      (fun s => decide (s.fam = .collectError)) = [] := by
  rw [List.filter_eq_nil_iff]
  intro s hs
  obtain ⟨hf, _⟩ := rdmaHandleSamples_spec mgr hn m s hs
  simp [hf]

lemma filter_ce_rdmaObjects (mgr hn : String) (m : CgMetricM) :
    (rdmaObjectSamples mgr hn m).filter
      (fun s => decide (s.fam = .collectError)) = [] := by
  rw [List.filter_eq_nil_iff]
  intro s hs
  obtain ⟨hf, _⟩ := rdmaObjectSamples_spec mgr hn m s hs
  simp [hf]

lemma applyCPUv2_pres (stats : V2StatsM) (m : CgMetricM) :
    (applyCPUv2 stats m).cpus = m.cpus ∧ (applyCPUv2 stats m).err = m.err := by
  rcases hc : stats.cpu with _ | c
  · simp [applyCPUv2, hc]
  · rcases hp : c.psiFullTotalUsec with _ | t <;>
      simp [applyCPUv2, hc, hp, cpuUpdateV2]

lemma applyMemoryV2_err (host : HostMemInfo) (stats : V2StatsM)
    (m : CgMetricM) : (applyMemoryV2 host stats m).err = m.err := by
  rcases hm : stats.memory with _ | mem
  · simp [applyMemoryV2, hm]
  · rcases hp : mem.psiFullTotalUsec with _ | t <;>
      simp [applyMemoryV2, hm, hp, memUpdateV2]

lemma applyMemEventsV2_err (stats : V2StatsM) (m : CgMetricM) :
    (applyMemEventsV2 stats m).err = m.err := by
  rcases hme : stats.memoryEvents with _ | ev <;> simp [applyMemEventsV2, hme]

lemma applyIoV2_err (bd : List (String × String)) (stats : V2StatsM)
    (m : CgMetricM) : (applyIoV2 bd stats m).err = m.err := by
  rcases hio : stats.io with _ | io
  · simp [applyIoV2, hio]
  · rcases hp : io.psiFullTotalUsec with _ | t <;>
      simp only [applyIoV2, hio, hp] <;>
      exact foldl_proj (ioAccum bd) (fun x => x.err) (fun a b => rfl)
        io.usage (blkioReset m)

lemma applyRdma_err (rdma : Option (List RdmaEntryM)) (m : CgMetricM) :
    (applyRdma rdma m).err = m.err := by
  cases rdma with
  | none => rfl
  | some entries =>
    exact foldl_proj rdmaAccum (fun x => x.err) (fun a b => rfl)
      entries (rdmaReset m)

lemma statsV2_partial_cpus (host : HostMemInfo) (bd : List (String × String))
    (stats : V2StatsM) (m0 : CgMetricM) :
    (statsV2 host bd ⟨.ok stats, none⟩ m0).cpus = m0.cpus := by
  simp only [statsV2]
  rw [(applyRdma_pres stats.rdma _).2.2, (applyIoV2_pres bd stats _).2.2,
    (applyMemEventsV2_pres stats _).2.2, applyMemoryV2_cpus]
  show (applyCPUv2 stats m0).cpus = m0.cpus
  exact (applyCPUv2_pres stats m0).1

lemma statsV2_partial_err (host : HostMemInfo) (bd : List (String × String))
    (stats : V2StatsM) (m0 : CgMetricM) :
    (statsV2 host bd ⟨.ok stats, none⟩ m0).err = m0.err := by
  simp only [statsV2]
  rw [applyRdma_err, applyIoV2_err, applyMemEventsV2_err, applyMemoryV2_err]
  show (applyCPUv2 stats m0).err = m0.err
  exact (applyCPUv2_pres stats m0).2

lemma applyCPUs_id_of_fail (cs : Option String) (m : CgMetricM)
    (h : ∀ content, cs = some content →
      parseCPUSet (stringDropNl content) = none) :
    applyCPUs cs m = m := by
  rcases hcs : cs with _ | content
  · rfl
  · have hp := h content hcs
    simp [applyCPUs, hp]

lemma statsV2_fail_cpus_err (host : HostMemInfo) (bd : List (String × String))
    (stats : V2StatsM) (m0 : CgMetricM) (cs : Option String)
    (h : ∀ content, cs = some content →
      parseCPUSet (stringDropNl content) = none) :
    (statsV2 host bd ⟨.ok stats, cs⟩ m0).cpus = m0.cpus ∧
    (statsV2 host bd ⟨.ok stats, cs⟩ m0).err = m0.err := by
  have hid : applyCPUs cs (applyCPUv2 stats m0) = applyCPUv2 stats m0 :=
    applyCPUs_id_of_fail cs _ h
  constructor
  · simp only [statsV2]
    rw [(applyRdma_pres stats.rdma _).2.2, (applyIoV2_pres bd stats _).2.2,
      (applyMemEventsV2_pres stats _).2.2, applyMemoryV2_cpus]
    show (applyCPUs cs (applyCPUv2 stats m0)).cpus = m0.cpus
    rw [hid]
    exact (applyCPUv2_pres stats m0).1
  · simp only [statsV2]
    rw [applyRdma_err, applyIoV2_err, applyMemEventsV2_err, applyMemoryV2_err]
    show (applyCPUs cs (applyCPUv2 stats m0)).err = m0.err
    rw [hid]
    exact (applyCPUv2_pres stats m0).2

lemma applyCPUv1_pres (stats : V1StatsM) (m : CgMetricM) :
    (applyCPUv1 stats m).cpus = m.cpus ∧ (applyCPUv1 stats m).err = m.err := by
  rcases hc : stats.cpu with _ | c <;> simp [applyCPUv1, hc]

lemma applyMemoryV1_cpus_err (host : HostMemInfo) (stats : V1StatsM)
    (m : CgMetricM) :
    (applyMemoryV1 host stats m).cpus = m.cpus ∧
    (applyMemoryV1 host stats m).err = m.err := by
  rcases hm : stats.memory with _ | mem
  · simp [applyMemoryV1, hm]
  · rcases hu : mem.usage with _ | u <;> rcases hs : mem.swap with _ | sw <;>
      simp [applyMemoryV1, hm, memSwapV1, memUsageV1, memRSSCacheV1, hu, hs]

lemma blkioBytesAccumV1_pres (bd : List (String × String)) (a : CgMetricM)
    (e : V1BlkioEntryM) :
    (blkioBytesAccumV1 bd a e).cpus = a.cpus ∧
    (blkioBytesAccumV1 bd a e).err = a.err := by
  unfold blkioBytesAccumV1
  by_cases h1 : e.op = "Read"
  · rw [if_pos h1]; exact ⟨rfl, rfl⟩
  · rw [if_neg h1]
    by_cases h2 : e.op = "Write"
    · rw [if_pos h2]; exact ⟨rfl, rfl⟩
    · rw [if_neg h2]; exact ⟨rfl, rfl⟩

lemma blkioReqsAccumV1_pres (bd : List (String × String)) (a : CgMetricM)
    (e : V1BlkioEntryM) :
    (blkioReqsAccumV1 bd a e).cpus = a.cpus ∧
    (blkioReqsAccumV1 bd a e).err = a.err := by
  unfold blkioReqsAccumV1
  by_cases h1 : e.op = "Read"
  · rw [if_pos h1]; exact ⟨rfl, rfl⟩
  · rw [if_neg h1]
    by_cases h2 : e.op = "Write"
    · rw [if_pos h2]; exact ⟨rfl, rfl⟩
    · rw [if_neg h2]; exact ⟨rfl, rfl⟩

lemma applyBlkioV1_cpus_err (bd : List (String × String)) (stats : V1StatsM)
    (m : CgMetricM) :
    (applyBlkioV1 bd stats m).cpus = m.cpus ∧
    (applyBlkioV1 bd stats m).err = m.err := by
  rcases hb : stats.blkio with _ | bl
  · simp [applyBlkioV1, hb]
  · simp only [applyBlkioV1, hb]
    constructor
    · rw [foldl_proj (blkioReqsAccumV1 bd) (fun x => x.cpus)
          (fun a e => (blkioReqsAccumV1_pres bd a e).1) bl.ioServicedRecursive _,
        foldl_proj (blkioBytesAccumV1 bd) (fun x => x.cpus)
          (fun a e => (blkioBytesAccumV1_pres bd a e).1)
          bl.ioServiceBytesRecursive _]
      rfl
    · rw [foldl_proj (blkioReqsAccumV1 bd) (fun x => x.err)
          (fun a e => (blkioReqsAccumV1_pres bd a e).2) bl.ioServicedRecursive _,
        foldl_proj (blkioBytesAccumV1 bd) (fun x => x.err)
          (fun a e => (blkioBytesAccumV1_pres bd a e).2)
          bl.ioServiceBytesRecursive _]
      rfl

lemma statsV1_cpus (host : HostMemInfo) (bd : List (String × String))
    (env : CgroupEnvV1) (m0 : CgMetricM) (stats : V1StatsM) (content : String)
    (l : List String) (hl : env.load = .ok stats)
    (hc : env.cpuset = some content)
    (hp : parseCPUSet (stringDropNl content) = some l) :
    (statsV1 host bd env m0).cpus = l.length := by
  simp only [statsV1, hl]
  rw [(applyRdma_pres stats.rdma _).2.2, (applyBlkioV1_cpus_err bd stats _).1,
    (applyMemoryV1_cpus_err host stats _).1, hc]
  exact applyCPUs_cpus_of_parse content l _ hp

lemma statsV1_fail_cpus_err (host : HostMemInfo) (bd : List (String × String))
    (stats : V1StatsM) (m0 : CgMetricM) (cs : Option String)
    (h : ∀ content, cs = some content →
      parseCPUSet (stringDropNl content) = none) :
    (statsV1 host bd ⟨.ok stats, cs⟩ m0).cpus = m0.cpus ∧
    (statsV1 host bd ⟨.ok stats, cs⟩ m0).err = m0.err := by
  have hid : applyCPUs cs (applyCPUv1 stats m0) = applyCPUv1 stats m0 :=
    applyCPUs_id_of_fail cs _ h
  constructor
  · simp only [statsV1]
    rw [(applyRdma_pres stats.rdma _).2.2, (applyBlkioV1_cpus_err bd stats _).1,
      (applyMemoryV1_cpus_err host stats _).1]
    show (applyCPUs cs (applyCPUv1 stats m0)).cpus = m0.cpus
    rw [hid]
    exact (applyCPUv1_pres stats m0).1
  · simp only [statsV1]
    rw [applyRdma_err, (applyBlkioV1_cpus_err bd stats _).2,
      (applyMemoryV1_cpus_err host stats _).2]
    show (applyCPUs cs (applyCPUv1 stats m0)).err = m0.err
    rw [hid]
    exact (applyCPUv1_pres stats m0).2

/-- Fully successful v2 stats for the C2 inputs. -/
def c2stats : V2StatsM := ⟨some ⟨5000000, 1000000, 6000000, none⟩, none, none, none, none⟩

/-- Successful load with a readable cpuset file. -/
def c2envA : CgroupEnvV2 := ⟨.ok c2stats, some "0-3"⟩

/-- Successful load with the cpuset file missing. -/
def c2envB : CgroupEnvV2 := ⟨.ok c2stats, none⟩

/-- All option flags on. -/
def c2opts : CgroupOptsM := ⟨true, true, true⟩

/-- C2 counterexample: (i) for a fully successful stats read the code
emits no `compute_collect_error` sample at all, while the claim requires
the gauge to be 0; (ii) a missing `cpuset.cpus.effective` file — a
missing stats file, hence a partial failure in the claim's terms — leaves
the err flag false. -/
theorem c2_counterexample :
    ((statsV2 ⟨0, 0⟩ [] c2envA (CgMetricM.init "/p" "u")).err = false ∧
      ((emitUnit c2opts "slurm" "h"
          (statsV2 ⟨0, 0⟩ [] c2envA (CgMetricM.init "/p" "u"))).filter
        (fun s => decide (s.fam = .collectError))) = []) ∧
    (statsV2 ⟨0, 0⟩ [] c2envB (CgMetricM.init "/p" "u")).err = false := by decide

/-- C2 (amended): the stats readers never fail outright — in both cgroup
modes a cgroup load failure, stat failure or nil stats returns the metric
unchanged except for `err := true`; in both modes a missing cpuset file
(`cpuset = none`) or an unparsable one (`parseCPUSet` fails on its
content) leaves `cpus` untouched and does not change `err`; the unit's
CPU and memory samples are emitted whether or not `err` is set; and the
`compute_collect_error` sample is emitted with value 1 exactly when `err`
is set and is absent (not 0) otherwise. -/
theorem c2_partial_failure_handling :
    (∀ (host : HostMemInfo) (bd : List (String × String)) (env : CgroupEnvV2)
        (m0 : CgMetricM), env.load.isOkB = false →
      statsV2 host bd env m0 = { m0 with err := true }) ∧
    (∀ (host : HostMemInfo) (bd : List (String × String)) (env : CgroupEnvV1)
        (m0 : CgMetricM), env.load.isOkB = false →
      statsV1 host bd env m0 = { m0 with err := true }) ∧
    (∀ (host : HostMemInfo) (bd : List (String × String)) (stats : V2StatsM)
        (m0 : CgMetricM) (cs : Option String),
      (∀ content, cs = some content →
        parseCPUSet (stringDropNl content) = none) →
      (statsV2 host bd ⟨.ok stats, cs⟩ m0).cpus = m0.cpus ∧
      (statsV2 host bd ⟨.ok stats, cs⟩ m0).err = m0.err) ∧
    (∀ (host : HostMemInfo) (bd : List (String × String)) (stats : V1StatsM)
        (m0 : CgMetricM) (cs : Option String),
      (∀ content, cs = some content →
        parseCPUSet (stringDropNl content) = none) →
      (statsV1 host bd ⟨.ok stats, cs⟩ m0).cpus = m0.cpus ∧
      (statsV1 host bd ⟨.ok stats, cs⟩ m0).err = m0.err) ∧
    (∀ (opts : CgroupOptsM) (mgr hn : String) (m : CgMetricM),
      ((emitUnit opts mgr hn m).filter
        (fun s => decide (s.fam = .collectError))).map (fun s => s.value) =
        (if m.err then [1] else [])) ∧
    (∀ (opts : CgroupOptsM) (mgr hn : String) (m : CgMetricM),
      (⟨.cpuUser, m.cpuUser, mgr, hn, some m.uuid, none⟩ : Sample) ∈
        emitUnit opts mgr hn m ∧
      (⟨.memoryUsed, m.memoryUsed, mgr, hn, some m.uuid, none⟩ : Sample) ∈
        emitUnit opts mgr hn m ∧
      (⟨.memoryTotal, m.memoryTotal, mgr, hn, some m.uuid, none⟩ : Sample) ∈
        emitUnit opts mgr hn m) := by
  refine ⟨?_, ?_, ?_, ?_, ?_, ?_⟩
  · intro host bd env m0 h
    unfold statsV2
    rcases henv : env.load with _ | _ | _ | stats
    · rfl
    · rfl
    · rfl
    · rw [henv] at h
      simp [LoadResult.isOkB] at h
  · intro host bd env m0 h
    unfold statsV1
    rcases henv : env.load with _ | _ | _ | stats
    · rfl
    · rfl
    · rfl
    · rw [henv] at h
      simp [LoadResult.isOkB] at h
  · intro host bd stats m0 cs h
    exact statsV2_fail_cpus_err host bd stats m0 cs h
  · intro host bd stats m0 cs h
    exact statsV1_fail_cpus_err host bd stats m0 cs h
  · intro opts mgr hn m
    cases herr : m.err <;>
      cases hsw : opts.collectSwapMemStats <;>
        cases hbk : opts.collectBlockIOStats <;>
          cases hps : opts.collectPSIStats <;>
            simp [emitUnit, herr, hsw, hbk, hps, List.filter_append,
              filter_ce_blkio, filter_ce_rdmaHandles, filter_ce_rdmaObjects]
  · intro opts mgr hn m
    refine ⟨?_, ?_, ?_⟩ <;> simp [emitUnit]

/-- A failed v2 load. -/
def c2failEnvV2 : CgroupEnvV2 := ⟨.loadFailed, none⟩

/-- A failed v1 stat. -/
def c2failEnvV1 : CgroupEnvV1 := ⟨.statFailed, none⟩

/-- A metric whose stats read partially failed. -/
def c2errMetric : CgMetricM := { CgMetricM.init "/p" "u" with err := true }

/-- Empty v1 stats for the C2 witness. -/
def c2v1stats : V1StatsM := ⟨none, none, none, none⟩

/-- C2 witness: the amended theorem applied to a failed v2 load, a failed
v1 stat, a v2 read with an unparsable cpuset file, a v1 read with a
missing cpuset file, and an errored metric whose collect-error sample is
emitted with value 1 alongside its CPU sample. -/
theorem c2_witness :
    c2failEnvV2.load.isOkB = false ∧
    statsV2 ⟨0, 0⟩ [] c2failEnvV2 (CgMetricM.init "/p" "u") =
      { CgMetricM.init "/p" "u" with err := true } ∧
    statsV1 ⟨0, 0⟩ [] c2failEnvV1 (CgMetricM.init "/p" "u") =
      { CgMetricM.init "/p" "u" with err := true } ∧
    parseCPUSet (stringDropNl "x") = none ∧
    ((statsV2 ⟨0, 0⟩ [] ⟨.ok c2stats, some "x"⟩ (CgMetricM.init "/p" "u")).cpus =
        (CgMetricM.init "/p" "u").cpus ∧
      (statsV2 ⟨0, 0⟩ [] ⟨.ok c2stats, some "x"⟩ (CgMetricM.init "/p" "u")).err =
        (CgMetricM.init "/p" "u").err) ∧
    ((statsV1 ⟨0, 0⟩ [] ⟨.ok c2v1stats, none⟩ (CgMetricM.init "/p" "u")).cpus =
        (CgMetricM.init "/p" "u").cpus ∧
      (statsV1 ⟨0, 0⟩ [] ⟨.ok c2v1stats, none⟩ (CgMetricM.init "/p" "u")).err =
        (CgMetricM.init "/p" "u").err) ∧
    ((emitUnit c2opts "slurm" "h" c2errMetric).filter
      (fun s => decide (s.fam = .collectError))).map (fun s => s.value) = [1] ∧
    (⟨.cpuUser, c2errMetric.cpuUser, "slurm", "h", some c2errMetric.uuid,
        none⟩ : Sample) ∈ emitUnit c2opts "slurm" "h" c2errMetric :=
  ⟨rfl,
   c2_partial_failure_handling.1 ⟨0, 0⟩ [] c2failEnvV2 (CgMetricM.init "/p" "u") rfl,
   c2_partial_failure_handling.2.1 ⟨0, 0⟩ [] c2failEnvV1 (CgMetricM.init "/p" "u") rfl,
   by decide,
   c2_partial_failure_handling.2.2.1 ⟨0, 0⟩ [] c2stats (CgMetricM.init "/p" "u")
     (some "x") (by intro content hc; cases hc; decide),
   c2_partial_failure_handling.2.2.2.1 ⟨0, 0⟩ [] c2v1stats (CgMetricM.init "/p" "u")
     none (by intro content hc; cases hc),
   c2_partial_failure_handling.2.2.2.2.1 c2opts "slurm" "h" c2errMetric,
   (c2_partial_failure_handling.2.2.2.2.2 c2opts "slurm" "h" c2errMetric).1⟩

/-- The v2 stats of the C6 failing input: one RDMA device with 3 HCA
handles and 7 HCA objects. -/
def c6stats : V2StatsM := ⟨none, none, none, none, some [⟨"mlx5_0", 3, 7⟩]⟩

/-- Successful load of `c6stats`. -/
def c6env : CgroupEnvV2 := ⟨.ok c6stats, none⟩

/-- The metric read from `c6env`. -/
def c6metric : CgMetricM := statsV2 ⟨0, 0⟩ [] c6env (CgMetricM.init "/p" "u")

/-- C6: the stats readers populate the objects map correctly (7 objects),
but the `Update` emission loop for `compute_unit_rdma_hca_objects` ranges
over the handles map, so the emitted objects value is 3 — the handle
count — and the two metric families report the same counter, contradicting
the claim and the collector's own populated-but-unused `rdmaHCAObjects`
field. -/
theorem c6_rdma_objects_reports_handles :
    c6metric.rdmaHCAHandles = [("mlx5_0", 3)] ∧
    c6metric.rdmaHCAObjects = [("mlx5_0", 7)] ∧
    ((emitUnit ⟨false, false, false⟩ "slurm" "h" c6metric).filter
      (fun s => decide (s.fam = .rdmaObjects))).map (fun s => s.value) = [3] ∧
    ((emitUnit ⟨false, false, false⟩ "slurm" "h" c6metric).filter
      (fun s => decide (s.fam = .rdmaHandles))).map (fun s => s.value) = [3] := by
  decide

/-- C10: every emitted per-device block-IO or RDMA sample carries a
strictly positive value (zero-valued per-device samples are suppressed),
while the per-unit CPU and memory gauges are emitted unconditionally,
zero values included. -/
theorem c10_per_device_positive_only :
    (∀ (opts : CgroupOptsM) (mgr hn : String) (m : CgMetricM) (s : Sample),
      s ∈ emitUnit opts mgr hn m →
      (s.fam = .blkioReadBytes ∨ s.fam = .blkioWriteBytes ∨
       s.fam = .blkioReadReqs ∨ s.fam = .blkioWriteReqs ∨
       s.fam = .rdmaHandles ∨ s.fam = .rdmaObjects) → 0 < s.value) ∧
    (∀ (opts : CgroupOptsM) (mgr hn : String) (m : CgMetricM),
      (⟨.cpuUser, m.cpuUser, mgr, hn, some m.uuid, none⟩ : Sample) ∈
        emitUnit opts mgr hn m ∧
      (⟨.cpuSystem, m.cpuSystem, mgr, hn, some m.uuid, none⟩ : Sample) ∈
        emitUnit opts mgr hn m ∧
      (⟨.cpus, (m.cpus : ℚ), mgr, hn, some m.uuid, none⟩ : Sample) ∈
        emitUnit opts mgr hn m ∧
      (⟨.memoryRSS, m.memoryRSS, mgr, hn, some m.uuid, none⟩ : Sample) ∈
        emitUnit opts mgr hn m ∧
      (⟨.memoryCache, m.memoryCache, mgr, hn, some m.uuid, none⟩ : Sample) ∈
        emitUnit opts mgr hn m ∧
      (⟨.memoryUsed, m.memoryUsed, mgr, hn, some m.uuid, none⟩ : Sample) ∈
        emitUnit opts mgr hn m ∧
      (⟨.memoryTotal, m.memoryTotal, mgr, hn, some m.uuid, none⟩ : Sample) ∈
        emitUnit opts mgr hn m ∧
      (⟨.memoryFailCount, m.memoryFailCount, mgr, hn, some m.uuid, none⟩ : Sample) ∈
        emitUnit opts mgr hn m) := by
  constructor
  · intro opts mgr hn m s hs hfam
    unfold emitUnit at hs
    rcases List.mem_append.mp hs with hs | hs
    rotate_left
    · exact (rdmaObjectSamples_spec mgr hn m s hs).2
    rcases List.mem_append.mp hs with hs | hs
    rotate_left
    · exact (rdmaHandleSamples_spec mgr hn m s hs).2
    rcases List.mem_append.mp hs with hs | hs
    rotate_left
    · -- PSI samples
      split at hs
      · simp only [List.mem_cons, List.not_mem_nil, or_false] at hs
        rcases hs with rfl | rfl <;> simp at hfam
      · cases hs
    rcases List.mem_append.mp hs with hs | hs
    rotate_left
    · -- block-IO samples
      split at hs
      · exact (blkioSamples_spec mgr hn m s hs).2
      · cases hs
    rcases List.mem_append.mp hs with hs | hs
    rotate_left
    · -- swap samples
      split at hs
      · simp only [List.mem_cons, List.not_mem_nil, or_false] at hs
        rcases hs with rfl | rfl | rfl <;> simp at hfam
      · cases hs
    rcases List.mem_append.mp hs with hs | hs
    rotate_left
    · -- memory samples
      simp only [List.mem_cons, List.not_mem_nil, or_false] at hs
      rcases hs with rfl | rfl | rfl | rfl | rfl <;> simp at hfam
    rcases List.mem_append.mp hs with hs | hs
    · -- collect-error sample
      split at hs
      · rw [List.mem_singleton] at hs
        subst hs
        simp at hfam
      · cases hs
    · -- CPU samples
      simp only [List.mem_cons, List.not_mem_nil, or_false] at hs
      rcases hs with rfl | rfl | rfl <;> simp at hfam
  · intro opts mgr hn m
    refine ⟨?_, ?_, ?_, ?_, ?_, ?_, ?_, ?_⟩ <;> simp [emitUnit]

/-- The metric of the C10 witness: one RDMA device with 2 handles. -/
def c10m : CgMetricM :=
  { CgMetricM.init "/p" "u" with rdmaHCAHandles := [("d", 2)] }

/-- The handles sample the C10 witness exhibits. -/
def c10s : Sample := ⟨.rdmaHandles, 2, "slurm", "h", some "u", some "d"⟩

/-- C10 witness: the theorem applied at a concrete emission. -/
theorem c10_witness :
    c10s ∈ emitUnit ⟨false, false, false⟩ "slurm" "h" c10m ∧
    (0 : ℚ) < c10s.value :=
  ⟨by decide,
   c10_per_device_positive_only.1 ⟨false, false, false⟩ "slurm" "h" c10m c10s
     (by decide) (by decide)⟩

/-! ## Discovery lemmas -/

lemma stepEntry_cgroups (M : ManagerModel) (e : WalkEntry) (st : DiscState) :
    (stepEntry M e st).cgroups = st.cgroups ++ (entryRoot M e).toList := by
  rcases hdir : e.isDir with _ | _
  · simp [stepEntry, entryRoot, hdir]
  · rcases hrel : M.relOf e.path with _ | rel
    · simp [stepEntry, entryRoot, hdir, hrel]
    · rcases hun : M.unescape e.path with _ | sp
      · simp [stepEntry, entryRoot, hdir, hrel, hun]
      · rcases hid : M.idOf sp with _ | cap
        · simp [stepEntry, entryRoot, hdir, hrel, hun, hid]
        · by_cases htr : goTrim cap = ""
          · simp [stepEntry, entryRoot, hdir, hrel, hun, hid, htr]
          · by_cases hch : M.isChild e.path
            · simp [stepEntry, entryRoot, hdir, hrel, hun, hid, htr, hch]
            · simp [stepEntry, entryRoot, hdir, hrel, hun, hid, htr, hch]

lemma entryRoot_good (M : ManagerModel) (e : WalkEntry) (c : CgroupM)
    (h : entryRoot M e = some c) :
    c.uuid = c.id ∧ c.id ≠ "" ∧
    ∃ cap, M.idOf c.path.abs = some cap ∧ c.id = goTrim cap := by
  unfold entryRoot at h
  rcases hdir : e.isDir with _ | _
  · rw [hdir] at h
    simp at h
  · rw [hdir] at h
    rcases hrel : M.relOf e.path with _ | rel
    · simp [hrel] at h
    · rcases hun : M.unescape e.path with _ | sp
      · simp [hrel, hun] at h
      · rcases hid : M.idOf sp with _ | cap
        · simp [hrel, hun, hid] at h
        · by_cases htr : goTrim cap = ""
          · simp [hrel, hun, hid, htr] at h
          · by_cases hch : M.isChild e.path
            · simp [hrel, hun, hid, htr, hch] at h
            · simp only [hrel, hun, hid, htr, hch] at h
              simp only [if_true, if_false, ite_false, ite_true] at h
              have h2 : some (⟨goTrim cap, goTrim cap, ⟨sp, rel⟩, [], []⟩ :
                  CgroupM) = some c := by
                rw [← h]
                simp [htr, hch]
              injection h2 with h3
              subst h3
              exact ⟨rfl, htr, cap, hid, rfl⟩

lemma discGo_ok (M : ManagerModel) :
    ∀ (evts : List WalkEntry) (st : DiscState),
      isOkE (discGo M evts st) = evts.all (fun e => !e.err) := by
  intro evts
  induction evts with
  | nil => intro st; rfl
  | cons e rest ih =>
    intro st
    rcases herr : e.err with _ | _
    · simp [discGo, herr, ih]
    · simp [discGo, herr, isOkE]

lemma discGo_ids (M : ManagerModel) :
    ∀ (evts : List WalkEntry) (st res : DiscState),
      discGo M evts st = .ok res →
      res.cgroups.map (fun c => c.id) =
        st.cgroups.map (fun c => c.id) ++ rootIds M evts := by
  intro evts
  induction evts with
  | nil =>
    intro st res h
    injection h with h2
    subst h2
    simp [rootIds]
  | cons e rest ih =>
    intro st res h
    rcases herr : e.err with _ | _
    · simp only [discGo, herr, Bool.false_eq_true, if_false] at h
      have hih := ih (stepEntry M e st) res h
      rw [hih, stepEntry_cgroups, List.map_append, List.append_assoc]
      congr 1
      simp only [rootIds, List.filterMap_cons]
      rcases hroot : entryRoot M e with _ | r
      · simp [hroot, rootIds]
      · simp [hroot, rootIds]
    · simp [discGo, herr] at h

lemma discGo_good (M : ManagerModel) :
    ∀ (evts : List WalkEntry) (st res : DiscState),
      discGo M evts st = .ok res →
      (∀ c ∈ st.cgroups, c.uuid = c.id ∧ c.id ≠ "" ∧
        ∃ cap, M.idOf c.path.abs = some cap ∧ c.id = goTrim cap) →
      ∀ c ∈ res.cgroups, c.uuid = c.id ∧ c.id ≠ "" ∧
        ∃ cap, M.idOf c.path.abs = some cap ∧ c.id = goTrim cap := by
  intro evts
  induction evts with
  | nil =>
    intro st res h hst
    injection h with h2
    subst h2
    exact hst
  | cons e rest ih =>
    intro st res h hst
    rcases herr : e.err with _ | _
    · simp only [discGo, herr, Bool.false_eq_true, if_false] at h
      refine ih (stepEntry M e st) res h ?_
      intro c hc
      rw [stepEntry_cgroups] at hc
      rcases List.mem_append.mp hc with hc | hc
      · exact hst c hc
      · rcases hroot : entryRoot M e with _ | r
        · rw [hroot] at hc
          cases hc
        · rw [hroot] at hc
          simp only [Option.toList_some, List.mem_singleton] at hc
          subst hc
          exact entryRoot_good M e c hroot
    · simp [discGo, herr] at h

lemma mergeState_map_id (st : DiscState) :
    (mergeState st).map (fun c => c.id) = st.cgroups.map (fun c => c.id) := by
  unfold mergeState
  rw [List.map_map]
  rfl

lemma mergeState_mem (st : DiscState) (c : CgroupM) (hc : c ∈ mergeState st) :
    ∃ c0 ∈ st.cgroups, c.id = c0.id ∧ c.uuid = c0.uuid ∧ c.path = c0.path := by
  unfold mergeState at hc
  obtain ⟨c0, hc0, heq⟩ := List.mem_map.mp hc
  refine ⟨c0, hc0, ?_, ?_, ?_⟩ <;> rw [← heq]

/-- C5 counterexample: a walk in which the second directory has vanished
(its entry carries a filesystem error) aborts the whole discovery pass
with that error and yields no units, although without the vanished entry
the first directory does produce a unit.  The claim requires the pass to
complete with the surviving units. -/
theorem c5_counterexample :
    discover slurmM [⟨"/slurm/job_1", true, false⟩, ⟨"/slurm/job_2", true, true⟩] =
      .error "/slurm/job_2" ∧
    discover slurmM [⟨"/slurm/job_1", true, false⟩] =
      .ok [⟨"1", "1", ⟨"/slurm/job_1", "/slurm/job_1"⟩, [],
        [⟨"/slurm/job_1", "/slurm/job_1"⟩]⟩] := by decide

/-- C5 (amended): the discovery pass succeeds exactly when no walk entry
reports a filesystem error; any erroring entry — a vanished directory
included — aborts the whole pass with an error and no units are
returned. -/
theorem c5_walk_error_aborts (M : ManagerModel) (evts : List WalkEntry) :
    isOkE (discover M evts) = evts.all (fun e => !e.err) := by
  unfold discover
  have hmap : ∀ (r : Except String DiscState),
      isOkE (r.map mergeState) = isOkE r := by
    intro r
    cases r <;> rfl
  rw [hmap]
  exact discGo_ok M evts ⟨[], [], []⟩

/-- C7 counterexample: two nested non-child directories both match the
slurm ID regex with the same capture, and discovery returns two root
units with the same id "1" — the per-pass uniqueness the claim states is
not enforced by the code. -/
theorem c7_counterexample :
    (discover slurmM [⟨"/slurm/job_1", true, false⟩,
        ⟨"/slurm/job_1/sub", true, false⟩]).map
      (fun res => res.map (fun c => c.id)) = .ok ["1", "1"] ∧
    ¬ (["1", "1"] : List String).Nodup := by decide

/-- C7 (amended): every returned unit has `uuid = id`, the id being the
nonempty trimmed first capture of the ID regex on the unicode-unescaped
root path; the ids of the returned roots are exactly the ids of the
qualifying non-child directories in walk order (so directories that do
not match, or whose extracted ID is empty, contribute no unit); and the
ids are pairwise distinct provided the qualifying directories extract
pairwise distinct ids — which the code does not itself enforce. -/
theorem c7_discover_root_invariants (M : ManagerModel) (evts : List WalkEntry)
    (res : List CgroupM) (hres : discover M evts = .ok res) :
    (∀ c ∈ res, c.uuid = c.id ∧ c.id ≠ "" ∧
      ∃ cap, M.idOf c.path.abs = some cap ∧ c.id = goTrim cap) ∧
    res.map (fun c => c.id) = rootIds M evts ∧
    ((rootIds M evts).Nodup → (res.map (fun c => c.id)).Nodup) := by
  unfold discover at hres
  rcases hgo : discGo M evts ⟨[], [], []⟩ with er | stres
  · rw [hgo] at hres
    simp [Except.map] at hres
  · rw [hgo] at hres
    simp only [Except.map] at hres
    injection hres with h2
    subst h2
    refine ⟨?_, ?_, ?_⟩
    · intro c hc
      obtain ⟨c0, hc0, hid, huuid, hpath⟩ := mergeState_mem stres c hc
      obtain ⟨h1, h2, cap, h3, h4⟩ := discGo_good M evts ⟨[], [], []⟩ stres hgo
        (by intro c hcx; cases hcx) c0 hc0
      refine ⟨?_, ?_, cap, ?_, ?_⟩
      · rw [huuid, h1, hid]
      · rw [hid]; exact h2
      · rw [hpath]; exact h3
      · rw [hid]; exact h4
    · rw [mergeState_map_id, discGo_ids M evts ⟨[], [], []⟩ stres hgo]
      simp
    · intro hnd
      rw [mergeState_map_id, discGo_ids M evts ⟨[], [], []⟩ stres hgo]
      simpa using hnd

/-- The walk of the C7 witness. -/
def c7evts : List WalkEntry := [⟨"/slurm/job_7", true, false⟩]

/-- The units the C7 witness walk produces. -/
def c7res : List CgroupM :=
  [⟨"7", "7", ⟨"/slurm/job_7", "/slurm/job_7"⟩, [],
    [⟨"/slurm/job_7", "/slurm/job_7"⟩]⟩]

/-- C7 witness: the amended theorem applied to a concrete slurm walk. -/
theorem c7_witness :
    (∀ c ∈ c7res, c.uuid = c.id ∧ c.id ≠ "" ∧
      ∃ cap, slurmM.idOf c.path.abs = some cap ∧ c.id = goTrim cap) ∧
    c7res.map (fun c => c.id) = rootIds slurmM c7evts ∧
    ((rootIds slurmM c7evts).Nodup → (c7res.map (fun c => c.id)).Nodup) :=
  c7_discover_root_invariants slurmM c7evts c7res (by decide)

/-! ## Cpuset counting lemmas (C8) -/

lemma expandRange_length (st en : Int) :
    (expandRange st en).length = (en + 1 - st).toNat := by
  rw [expandRange, List.length_map, List.length_range]

lemma disjoint_foldr_union (t : Finset Int) (l : List (Finset Int))
    (h : ∀ u ∈ l, Disjoint t u) :
    Disjoint t (l.foldr (fun a b => a ∪ b) ∅) := by
  induction l with
  | nil => simp
  | cons u rest ih =>
    rw [List.foldr_cons, Finset.disjoint_union_right]
    exact ⟨h u (List.mem_cons_self u rest),
      ih (fun x hx => h x (List.mem_cons_of_mem u hx))⟩

lemma card_foldr_union (l : List (Finset Int)) (h : l.Pairwise Disjoint) :
    (l.foldr (fun a b => a ∪ b) ∅).card = (l.map Finset.card).sum := by
  induction l with
  | nil => simp
  | cons t rest ih =>
    rw [List.pairwise_cons] at h
    rw [List.foldr_cons, List.map_cons, List.sum_cons,
      Finset.card_union_of_disjoint (disjoint_foldr_union t rest h.1), ih h.2]

lemma parseComps_card (comps : List (List Char)) :
    ∀ (sets : List (Finset Int)) (st en : Int),
      compDenotes comps = some sets →
      ∃ l, parseComps comps st en = some l ∧
        l.length = (sets.map Finset.card).sum := by
  induction comps with
  | nil =>
    intro sets st en h
    injection h with h2
    subst h2
    exact ⟨[], rfl, rfl⟩
  | cons r rest ih =>
    intro sets st en h
    rcases hsplit : splitOnCharL '-' r with _ | ⟨b, tl⟩
    · simp [compDenotes, compDenote, hsplit] at h
    · rcases tl with _ | ⟨b2, tl2⟩
      · rcases ha : goAtoiL b with _ | v
        · simp [compDenotes, compDenote, hsplit, ha] at h
        · simp only [compDenotes, compDenote, hsplit, ha] at h
          rcases hrest : compDenotes rest with _ | ts
          · simp only [hrest] at h
            cases h
          · simp only [hrest] at h
            injection h with h2
            subst h2
            obtain ⟨tail, htail, hlen⟩ := ih ts v v hrest
            refine ⟨expandRange v v ++ tail, ?_, ?_⟩
            · simp only [parseComps, hsplit, ha, htail]
            · rw [List.length_append, hlen]
              have h1 : (expandRange v v).length = 1 := by
                rw [expandRange_length]
                omega
              simp [h1]
      · rcases tl2 with _ | _
        · rcases ha1 : goAtoiL b with _ | v1
          · simp [compDenotes, compDenote, hsplit, ha1] at h
          · rcases ha2 : goAtoiL b2 with _ | v2
            · simp [compDenotes, compDenote, hsplit, ha1, ha2] at h
            · simp only [compDenotes, compDenote, hsplit, ha1, ha2] at h
              rcases hrest : compDenotes rest with _ | ts
              · simp only [hrest] at h
                cases h
              · simp only [hrest] at h
                injection h with h2
                subst h2
                obtain ⟨tail, htail, hlen⟩ := ih ts v1 v2 hrest
                refine ⟨expandRange v1 v2 ++ tail, ?_, ?_⟩
                · simp only [parseComps, hsplit, ha1, ha2, htail]
                · rw [List.length_append, hlen]
                  have h1 : (expandRange v1 v2).length = (Finset.Icc v1 v2).card := by
                    rw [expandRange_length, Int.card_Icc]
                  simp [h1]
        · simp [compDenotes, compDenote, hsplit] at h

/-- The v2 environment of the C8 counterexample: trivial stats, cpuset
file containing the overlapping expression `0-3,2`. -/
def c8env : CgroupEnvV2 := ⟨.ok ⟨none, none, none, none, none⟩, some "0-3,2"⟩

/-- C8 counterexample: the cpuset expression `0-3,2` is readable and
parses, the emitted `cpus` field is 5 (the total expansion count, with
the element 2 counted twice), but the cardinality of the denoted set
{0,1,2,3} is 4 — the claim equates the two. -/
theorem c8_counterexample :
    (statsV2 ⟨0, 0⟩ [] c8env (CgMetricM.init "/p" "u")).cpus = 5 ∧
    (cpusetDenotes "0-3,2").map Finset.card = some 4 := by decide

/-- C8 (amended): in both cgroup modes the emitted `cpus` field equals
the length of the parsed expansion (every range expanded, multiplicity
kept); when the expression is well-formed per the specification grammar
and its components denote pairwise disjoint sets — as kernel-written
cpuset files are — that length equals the cardinality of the denoted
set. -/
theorem c8_cpuset_count :
    (∀ (s : String) (sets : List (Finset Int)),
      compSets s = some sets → sets.Pairwise Disjoint →
      ∃ l S, parseCPUSet s = some l ∧ cpusetDenotes s = some S ∧
        l.length = S.card) ∧
    (∀ (host : HostMemInfo) (bd : List (String × String)) (env : CgroupEnvV2)
        (m0 : CgMetricM) (stats : V2StatsM) (content : String)
        (l : List String),
      env.load = .ok stats → env.cpuset = some content →
      parseCPUSet (stringDropNl content) = some l →
      (statsV2 host bd env m0).cpus = l.length) ∧
    (∀ (host : HostMemInfo) (bd : List (String × String)) (env : CgroupEnvV1)
        (m0 : CgMetricM) (stats : V1StatsM) (content : String)
        (l : List String),
      env.load = .ok stats → env.cpuset = some content →
      parseCPUSet (stringDropNl content) = some l →
      (statsV1 host bd env m0).cpus = l.length) := by
  refine ⟨?_, ?_, ?_⟩
  · intro s sets hcs hdisj
    have hne : ¬ s = "" := by
      intro h0
      simp only [compSets] at hcs
      rw [if_pos h0] at hcs
      cases hcs
    simp only [compSets] at hcs
    rw [if_neg hne] at hcs
    obtain ⟨l, hl, hlen⟩ := parseComps_card (splitOnCharL ',' s.toList)
      sets 0 0 hcs
    refine ⟨l, sets.foldr (fun a b => a ∪ b) ∅, ?_, ?_, ?_⟩
    · simp only [parseCPUSet]
      rw [if_neg hne]
      exact hl
    · simp only [cpusetDenotes, compSets]
      rw [if_neg hne, hcs]
      rfl
    · rw [hlen, card_foldr_union sets hdisj]
  · intro host bd env m0 stats content l hl hc hp
    exact statsV2_cpus host bd env m0 stats content l hl hc hp
  · intro host bd env m0 stats content l hl hc hp
    exact statsV1_cpus host bd env m0 stats content l hl hc hp

/-- The component sets of the C8 witness expression `0-3,7,9-11`. -/
def c8wsets : List (Finset Int) := [Finset.Icc 0 3, {7}, Finset.Icc 9 11]

/-- The v2 environment of the C8 witness: trivial stats, cpuset `0-3`. -/
def c8wenv : CgroupEnvV2 := ⟨.ok ⟨none, none, none, none, none⟩, some "0-3"⟩

/-- The v1 environment of the C8 witness: trivial stats, cpuset `1,5-6`. -/
def c8wenvV1 : CgroupEnvV1 := ⟨.ok ⟨none, none, none, none⟩, some "1,5-6"⟩

/-- C8 witness: the amended theorem applied to the specification example
`0-3,7,9-11` (count 8), to a concrete v2 unit with cpuset `0-3`, and to
a concrete v1 unit with cpuset `1,5-6`. -/
theorem c8_witness :
    compSets "0-3,7,9-11" = some c8wsets ∧ c8wsets.Pairwise Disjoint ∧
    (∃ l S, parseCPUSet "0-3,7,9-11" = some l ∧
      cpusetDenotes "0-3,7,9-11" = some S ∧ l.length = S.card) ∧
    parseCPUSet (stringDropNl "0-3") = some ["0", "1", "2", "3"] ∧
    (statsV2 ⟨0, 0⟩ [] c8wenv (CgMetricM.init "/p" "u")).cpus = 4 ∧
    parseCPUSet (stringDropNl "1,5-6") = some ["1", "5", "6"] ∧
    (statsV1 ⟨0, 0⟩ [] c8wenvV1 (CgMetricM.init "/p" "u")).cpus = 3 :=
  ⟨by decide, by decide,
   c8_cpuset_count.1 "0-3,7,9-11" c8wsets (by decide) (by decide),
   by decide,
   c8_cpuset_count.2.1 ⟨0, 0⟩ [] c8wenv (CgMetricM.init "/p" "u")
     ⟨none, none, none, none, none⟩ "0-3" ["0", "1", "2", "3"] rfl rfl
     (by decide),
   by decide,
   c8_cpuset_count.2.2 ⟨0, 0⟩ [] c8wenvV1 (CgMetricM.init "/p" "u")
     ⟨none, none, none, none⟩ "1,5-6" ["1", "5", "6"] rfl rfl
     (by decide)⟩

end Ceems
